import Mathlib

/-!
The bluzDK firmware: module validation pipeline (`hal/src/bluz/ota_flash_hal.c`).

A shallow embedding of the partition table, the range checker, the header
reader, the dependency validator, the validation pipeline (`fetch_module`) and
the system module inventory (`HAL_System_Info`).

Conventions of the embedding.

* Machine integers are `Nat`; a store into a narrower C object is written with an
  explicit `% 2 ^ w`.
* A pointer to a header (`const module_info_t*`) is an `Option module_info_t`:
  `none` is `NULL`. Raw data pointers (`crc`, `suffix`) are addresses, `0` is `NULL`.
* A C operation with undefined behaviour (dereferencing `NULL`, indexing past the
  end of the partition table) ends the computation with a `Fault`; every function
  that can reach one returns in `Except Fault`.
* Declarations that live in headers outside the translated sources (enumerator
  values, `PLATFORM_ID`, `sizeof`, `module_length`) are fields of `Decls`; the flash
  collaborators (`FLASH_ModuleInfo`, `FLASH_VerifyCRC32`) are fields of `Flash`.
-/

namespace BluzOta

/-! ## Data model -/

/-- Undefined behaviour of the C code, made explicit as an outcome. -/
inductive Fault where
  | null_dereference
  | out_of_bounds
deriving DecidableEq, Repr

/-- The `module_dependency_t` struct: `uint8_t`, `uint8_t`, `uint16_t`. -/
structure module_dependency_t where
  module_function : Nat
  module_index : Nat
  module_version : Nat
deriving DecidableEq, Repr

/-- The `module_info_t` header that sits at the start of a module (untrusted). -/
structure module_info_t where
  module_start_address : Nat
  module_end_address : Nat
  module_version : Nat
  platform_id : Nat
  module_function : Nat
  module_index : Nat
  dependency : module_dependency_t
deriving DecidableEq, Repr

/-- The `module_bounds_t` struct, fields in the order of the initialisers in the source. -/
structure module_bounds_t where
  maximum_size : Nat
  start_address : Nat
  end_address : Nat
  module_function : Nat
  module_index : Nat
  store : Nat
deriving DecidableEq, Repr

/-- The `hal_module_t` record filled in by `fetch_module`. -/
structure hal_module_t where
  bounds : module_bounds_t
  info : Option module_info_t
  crc : Nat
  suffix : Nat
  validity_checked : Nat
  validity_result : Nat
deriving DecidableEq, Repr

/-- The `hal_system_info_t` struct; `modules = none` is the `NULL` array,
`key_values = 0` the `NULL` pointer. -/
structure hal_system_info_t where
  platform_id : Nat
  modules : Option (List hal_module_t)
  module_count : Nat
  key_values : Nat
  key_value_count : Nat
deriving DecidableEq, Repr

/-- Declarations the translated file takes from headers that are not part of the
sources: the enumerators of `module_function_t`, `module_store_t` and
`module_validation_flags_t`, `PLATFORM_ID`, two `sizeof` values, the accessor
`module_length` and the enumerator `HAL_UPDATE_APPLIED_PENDING_RESTART` of
`hal_update_complete_t`. They are parameters of every definition that uses them. -/
structure Decls where
  MODULE_FUNCTION_NONE : Nat
  MODULE_FUNCTION_BOOTLOADER : Nat
  MODULE_FUNCTION_MONO_FIRMWARE : Nat
  MODULE_FUNCTION_SYSTEM_PART : Nat
  MODULE_FUNCTION_USER_PART : Nat
  MODULE_STORE_MAIN : Nat
  MODULE_STORE_FACTORY : Nat
  MODULE_STORE_SCRATCHPAD : Nat
  MODULE_VALIDATION_INTEGRITY : Nat
  MODULE_VALIDATION_DEPENDENCIES : Nat
  MODULE_VALIDATION_RANGE : Nat
  MODULE_VALIDATION_PLATFORM : Nat
  PLATFORM_ID : Nat
  sizeof_module_info_suffix_t : Nat
  sizeof_hal_module_t : Nat
  module_length : module_info_t → Nat
  HAL_UPDATE_APPLIED_PENDING_RESTART : Nat

/-- The flash collaborators on the internal device: `FLASH_ModuleInfo(FLASH_INTERNAL, a)`
(the header view at address `a`, or `NULL`) and
`FLASH_VerifyCRC32(FLASH_INTERNAL, a, len)`. A value of this type is a flash state. -/
structure Flash where
  FLASH_ModuleInfo : Nat → Option module_info_t
  FLASH_VerifyCRC32 : Nat → Nat → Bool

/-- The heap collaborator: `malloc n` is `NULL` (`none`) or a fresh block, given by
the uninitialised record found at each index of the block. -/
structure Heap where
  malloc : Nat → Option (Nat → hal_module_t)

/-- The all-zero `hal_module_t`: every integer `0`, every pointer `NULL`. -/
def hal_module_t.zeroed : hal_module_t :=
  { bounds := ⟨0, 0, 0, 0, 0, 0⟩, info := none, crc := 0, suffix := 0,
    validity_checked := 0, validity_result := 0 }

/-- The effect of `memset(target, 0, sizeof(*target))` on the contents of `*target`. -/
def memset_zero (_target : hal_module_t) : hal_module_t := hal_module_t.zeroed

/-- Modelled from the spec: the accessor `module_function` is declared in a header
outside the sources; the spec reads it as the header's own `function` field. -/
def module_function (mi : module_info_t) : Nat := mi.module_function

/-- Modelled from the spec: the accessor `module_index` is declared in a header
outside the sources; the spec reads it as the header's own `index` field. -/
def module_index (mi : module_info_t) : Nat := mi.module_index

/-- Modelled from the spec: the accessor `module_platform_id` is declared in a
header outside the sources; the spec reads it as the header's `platform_id` field. -/
def module_platform_id (mi : module_info_t) : Nat := mi.platform_id

/-! ## Partition table -/

namespace Modular

/-- Table entry `module_bootloader` of the `MODULAR_FIRMWARE` build. -/
def module_bootloader (d : Decls) : module_bounds_t :=
  ⟨0x4000, 0x3C000, 0x40000, d.MODULE_FUNCTION_BOOTLOADER, 0, d.MODULE_STORE_MAIN⟩

/-- Table entry `module_system_part1` of the `MODULAR_FIRMWARE` build. -/
def module_system_part1 (d : Decls) : module_bounds_t :=
  ⟨0x1F000, 0x18000, 0x37000, d.MODULE_FUNCTION_SYSTEM_PART, 1, d.MODULE_STORE_MAIN⟩

/-- Table entry `module_user` of the `MODULAR_FIRMWARE` build. -/
def module_user (d : Decls) : module_bounds_t :=
  ⟨0x5000, 0x37000, 0x3C000, d.MODULE_FUNCTION_USER_PART, 2, d.MODULE_STORE_MAIN⟩

/-- Table entry `module_factory` of the `MODULAR_FIRMWARE` build. -/
def module_factory (d : Decls) : module_bounds_t :=
  ⟨0x1F000, 0x1021000, 0x1040000, d.MODULE_FUNCTION_USER_PART, 1, d.MODULE_STORE_FACTORY⟩

/-- The array `module_bounds` of the `MODULAR_FIRMWARE` build. -/
def module_bounds (d : Decls) : List module_bounds_t :=
  [module_bootloader d, module_system_part1 d, module_user d, module_factory d]

/-- The scratch partition `module_ota` of the `MODULAR_FIRMWARE` build. -/
def module_ota (d : Decls) : module_bounds_t :=
  ⟨0x1D000, 0x1004000, 0x1021000, d.MODULE_FUNCTION_NONE, 0, d.MODULE_STORE_SCRATCHPAD⟩

end Modular

namespace Monolithic

/-- Table entry `module_bootloader` of the build without `MODULAR_FIRMWARE`. -/
def module_bootloader (d : Decls) : module_bounds_t :=
  ⟨0x4000, 0x3C000, 0x40000, d.MODULE_FUNCTION_BOOTLOADER, 0, d.MODULE_STORE_MAIN⟩

/-- Table entry `module_user` of the build without `MODULAR_FIRMWARE`. -/
def module_user (d : Decls) : module_bounds_t :=
  ⟨0x24000, 0x18000, 0x3C000, d.MODULE_FUNCTION_MONO_FIRMWARE, 0, d.MODULE_STORE_MAIN⟩

/-- Table entry `module_factory` of the build without `MODULAR_FIRMWARE`. -/
def module_factory (d : Decls) : module_bounds_t :=
  ⟨0x1F000, 0x1021000, 0x1040000, d.MODULE_FUNCTION_MONO_FIRMWARE, 0, d.MODULE_STORE_FACTORY⟩

/-- The array `module_bounds` of the build without `MODULAR_FIRMWARE`: three entries. -/
def module_bounds (d : Decls) : List module_bounds_t :=
  [module_bootloader d, module_user d, module_factory d]

/-- The scratch partition `module_ota` of the build without `MODULAR_FIRMWARE`. -/
def module_ota (d : Decls) : module_bounds_t :=
  ⟨0x1D000, 0x1004000, 0x1021000, d.MODULE_FUNCTION_NONE, 0, d.MODULE_STORE_SCRATCHPAD⟩

end Monolithic

/-- The constant `module_bounds_length`, defined after the `#if`/`#else`/`#endif`
block and so shared by both builds. -/
def module_bounds_length : Nat := 4

/-- The loop of `find_module_bounds`: `n` iterations remain, the next index is `i`.
Reading `module_bounds[i]` past the end of the array is a fault. -/
def find_module_bounds_loop (module_bounds : List module_bounds_t)
    (module_function module_index : Nat) :
    Nat → Nat → Except Fault (Option module_bounds_t)
  | 0, _ => .ok none
  | n + 1, i =>
    match module_bounds[i]? with
    | none => .error Fault.out_of_bounds
    | some b =>
      if b.module_function = module_function ∧ b.module_index = module_index then
        .ok (some b)
      else
        find_module_bounds_loop module_bounds module_function module_index n (i + 1)

/-- The function `find_module_bounds(uint8_t module_function, uint8_t module_index)`:
`for (i = 0; i < module_bounds_length; i++)`, first match or `NULL`. -/
def find_module_bounds (module_bounds : List module_bounds_t)
    (module_function module_index : Nat) : Except Fault (Option module_bounds_t) :=
  find_module_bounds_loop module_bounds (module_function % 256) (module_index % 256)
    module_bounds_length 0

/-! ## Range checker, header reader -/

/-- The function `in_range`: `test>=start && test<=end`. -/
def in_range (test start end_ : Nat) : Bool :=
  decide (test ≥ start) && decide (test ≤ end_)

/-- The function `locate_module`: `FLASH_ModuleInfo(FLASH_INTERNAL, bounds->start_address)`.
The argument is a pointer; reading `bounds->start_address` through `NULL` is a fault. -/
def locate_module (fl : Flash) : Option module_bounds_t → Except Fault (Option module_info_t)
  | none => .error Fault.null_dereference
  | some bounds => .ok (fl.FLASH_ModuleInfo bounds.start_address)

/-! ## Dependency validator -/

/-- The function `validate_module_dependencies(bounds, userOptional)`. -/
def validate_module_dependencies (d : Decls) (module_bounds : List module_bounds_t)
    (fl : Flash) (bounds : module_bounds_t) (userOptional : Bool) : Except Fault Bool :=
  match locate_module fl (some bounds) with
  | .error e => .error e
  | .ok none => .ok false
  | .ok (some module) =>
    if module.dependency.module_function = d.MODULE_FUNCTION_NONE
        ∨ (userOptional = true ∧ module_function module = d.MODULE_FUNCTION_USER_PART) then
      .ok true
    else
      match find_module_bounds module_bounds module.dependency.module_function
          module.dependency.module_index with
      | .error e => .error e
      | .ok dependency_bounds =>
        match locate_module fl dependency_bounds with
        | .error e => .error e
        | .ok none => .ok false
        | .ok (some dependency) =>
          .ok (decide (dependency.module_version ≥ module.dependency.module_version))

/-! ## Validation pipeline -/

/-- The statement `x |= flag` on a `uint16_t` object. -/
def or16 (x flag : Nat) : Nat := (x ||| flag) % 2 ^ 16

/-- The function `fetch_module(target, bounds, userDepsOptional, check_flags)`. The
result is the final contents of `*target` and the returned `bool`; the first
argument is the prior contents of `*target`. -/
def fetch_module (d : Decls) (module_bounds : List module_bounds_t) (fl : Flash)
    (target : hal_module_t) (bounds : module_bounds_t) (userDepsOptional : Bool)
    (check_flags : Nat) : Except Fault (hal_module_t × Bool) :=
  -- memset(target, 0, sizeof(*target)); target->bounds = *bounds;
  let target : hal_module_t := memset_zero target
  let target : hal_module_t := { target with bounds := bounds }
  match locate_module fl (some bounds) with
  | .error e => .error e
  | .ok none => .ok ({ target with info := none }, false)
  | .ok (some info) =>
    let target : hal_module_t := { target with info := some info }
    let target : hal_module_t := { target with
      validity_checked := (d.MODULE_VALIDATION_RANGE ||| d.MODULE_VALIDATION_DEPENDENCIES
        ||| d.MODULE_VALIDATION_PLATFORM ||| (check_flags % 2 ^ 16)) % 2 ^ 16 }
    let target : hal_module_t := { target with validity_result := 0 }
    let module_end : Nat := info.module_end_address
    match find_module_bounds module_bounds (module_function info) (module_index info) with
    | .error e => .error e
    | .ok expected_bounds =>
      let in_bounds : Bool :=
        match expected_bounds with
        | none => false
        | some eb => in_range (module_end % 2 ^ 32) eb.start_address eb.end_address
      if in_bounds then
        let target : hal_module_t := { target with
          validity_result := or16 target.validity_result d.MODULE_VALIDATION_RANGE }
        let target : hal_module_t := { target with
          validity_result := or16 target.validity_result
            (if d.PLATFORM_ID = module_platform_id info then d.MODULE_VALIDATION_PLATFORM else 0) }
        let target : hal_module_t := { target with crc := module_end }
        let target : hal_module_t := { target with
          suffix := (module_end + 2 ^ 32 - d.sizeof_module_info_suffix_t % 2 ^ 32) % 2 ^ 32 }
        match validate_module_dependencies d module_bounds fl bounds userDepsOptional with
        | .error e => .error e
        | .ok deps =>
          let target : hal_module_t :=
            if deps then
              { target with
                validity_result := or16 target.validity_result d.MODULE_VALIDATION_DEPENDENCIES }
            else target
          let target : hal_module_t :=
            if (target.validity_checked &&& d.MODULE_VALIDATION_INTEGRITY ≠ 0)
                ∧ fl.FLASH_VerifyCRC32 bounds.start_address (d.module_length info) = true then
              { target with
                validity_result := or16 target.validity_result d.MODULE_VALIDATION_INTEGRITY }
            else target
          .ok (target, target.info.isSome)
      else
        let target : hal_module_t := { target with info := none }
        .ok (target, target.info.isSome)

/-! ## System module inventory -/

/-- The function `HAL_OTA_Add_System_Info`: no key/value pairs. -/
def HAL_OTA_Add_System_Info (info : hal_system_info_t) (_create : Bool) : hal_system_info_t :=
  { info with key_values := 0, key_value_count := 0 }

/-- The loop `for (i = 0; i < count; i++) fetch_module(info->modules+i, module_bounds[i],
false, MODULE_VALIDATION_INTEGRITY)` of `HAL_System_Info`: `n` iterations remain, the
next index is `i`, `done` are the records `0 .. i-1` already written, `block` is the
uninitialised content of the allocated array. -/
def HAL_System_Info_loop (d : Decls) (module_bounds : List module_bounds_t) (fl : Flash)
    (block : Nat → hal_module_t) :
    Nat → Nat → List hal_module_t → Except Fault (List hal_module_t)
  | 0, _, done => .ok done
  | n + 1, i, done =>
    match module_bounds[i]? with
    | none => .error Fault.out_of_bounds
    | some b =>
      match fetch_module d module_bounds fl (block i) b false d.MODULE_VALIDATION_INTEGRITY with
      | .error e => .error e
      | .ok (r, _) =>
        HAL_System_Info_loop d module_bounds fl block n (i + 1) (done ++ [r])

/-- The function `HAL_System_Info(info, construct, reserved)`. -/
def HAL_System_Info (d : Decls) (module_bounds : List module_bounds_t) (fl : Flash)
    (heap : Heap) (info : hal_system_info_t) (construct : Bool) :
    Except Fault hal_system_info_t :=
  if construct then
    let info : hal_system_info_t := { info with platform_id := d.PLATFORM_ID % 2 ^ 16 }
    let count : Nat := module_bounds_length % 2 ^ 8
    match heap.malloc (module_bounds_length * d.sizeof_hal_module_t) with
    | none =>
      let info : hal_system_info_t := { info with modules := none }
      .ok (HAL_OTA_Add_System_Info info construct)
    | some block =>
      let info : hal_system_info_t := { info with module_count := count }
      match HAL_System_Info_loop d module_bounds fl block count 0 [] with
      | .error e => .error e
      | .ok records =>
        let info : hal_system_info_t := { info with modules := some records }
        .ok (HAL_OTA_Add_System_Info info construct)
  else
    let info : hal_system_info_t := { info with modules := none }
    .ok (HAL_OTA_Add_System_Info info construct)

/-! ## Concrete values used to evaluate the definitions -/

/-- A concrete choice of the header declarations, used to run the definitions on
examples: function codes 0, 2, 3, 4, 5, flags `1<<1 .. 1<<4`, platform 103. -/
def exampleDecls : Decls :=
  { MODULE_FUNCTION_NONE := 0
    MODULE_FUNCTION_BOOTLOADER := 2
    MODULE_FUNCTION_MONO_FIRMWARE := 3
    MODULE_FUNCTION_SYSTEM_PART := 4
    MODULE_FUNCTION_USER_PART := 5
    MODULE_STORE_MAIN := 0
    MODULE_STORE_FACTORY := 1
    MODULE_STORE_SCRATCHPAD := 3
    MODULE_VALIDATION_INTEGRITY := 2
    MODULE_VALIDATION_DEPENDENCIES := 4
    MODULE_VALIDATION_RANGE := 8
    MODULE_VALIDATION_PLATFORM := 16
    PLATFORM_ID := 103
    sizeof_module_info_suffix_t := 36
    sizeof_hal_module_t := 40
    module_length := fun mi => (mi.module_end_address + 2 ^ 32 - mi.module_start_address) % 2 ^ 32
    HAL_UPDATE_APPLIED_PENDING_RESTART := 1 }

/-! ## The shape of the record produced by `fetch_module` -/

/-- The value stored in `validity_checked` once the header pointer is not `NULL`. -/
def checked_mask (d : Decls) (check_flags : Nat) : Nat :=
  (d.MODULE_VALIDATION_RANGE ||| d.MODULE_VALIDATION_DEPENDENCIES
    ||| d.MODULE_VALIDATION_PLATFORM ||| (check_flags % 2 ^ 16)) % 2 ^ 16

/-- The value accumulated in `validity_result` on the branch where the range test
succeeded, as a function of the outcomes of the three other tests. -/
def result_mask (d : Decls) (platform deps integrity : Bool) : Nat :=
  let r0 := or16 (or16 0 d.MODULE_VALIDATION_RANGE)
    (if platform then d.MODULE_VALIDATION_PLATFORM else 0)
  let r1 := if deps then or16 r0 d.MODULE_VALIDATION_DEPENDENCIES else r0
  if integrity then or16 r1 d.MODULE_VALIDATION_INTEGRITY else r1

/-! ## Concrete flash states -/

/-- A bootloader header without dependency, ending inside the bootloader partition. -/
def bootloaderHeader : module_info_t :=
  { module_start_address := 0x3C000, module_end_address := 0x3F000, module_version := 1,
    platform_id := 103, module_function := 2, module_index := 0,
    dependency := ⟨0, 0, 0⟩ }

/-- A system-part header of version `v` whose own dependency is `dep`. -/
def systemHeader (v : Nat) (dep : module_dependency_t) : module_info_t :=
  { module_start_address := 0x18000, module_end_address := 0x30000, module_version := v,
    platform_id := 103, module_function := 4, module_index := 1,
    dependency := dep }

/-- A user-part header that requires system part 1 at version 5 or later. -/
def userHeader : module_info_t :=
  { module_start_address := 0x37000, module_end_address := 0x3A000, module_version := 1,
    platform_id := 103, module_function := 5, module_index := 2,
    dependency := ⟨4, 1, 5⟩ }

/-- A modular-build flash: bootloader, system part 1 with header `sys`, the user part
above, nothing readable in the factory partition; every checksum verifies. -/
def exampleFlash (sys : Option module_info_t) : Flash :=
  { FLASH_ModuleInfo := fun a =>
      if a = 0x3C000 then some bootloaderHeader
      else if a = 0x18000 then sys
      else if a = 0x37000 then some userHeader
      else none
    FLASH_VerifyCRC32 := fun _ _ => true }

/-- A user-part header that claims to be system part 2, for which the modular table
has no partition. -/
def strayHeader : module_info_t :=
  { module_start_address := 0x37000, module_end_address := 0x3A000, module_version := 1,
    platform_id := 103, module_function := 4, module_index := 2,
    dependency := ⟨0, 0, 0⟩ }

/-- A flash whose user partition holds `h`; nothing else is readable. -/
def userOnlyFlash (h : module_info_t) : Flash :=
  { FLASH_ModuleInfo := fun a => if a = 0x37000 then some h else none
    FLASH_VerifyCRC32 := fun _ _ => true }

/-- A user-part header built against a layout with a second system part: it
requires `(SYSTEM_PART, 2)` at version 1, a partition the modular table lacks. -/
def userOnPart2Header : module_info_t :=
  { module_start_address := 0x37000, module_end_address := 0x3A000, module_version := 1,
    platform_id := 103, module_function := 5, module_index := 2,
    dependency := ⟨4, 2, 1⟩ }

/-- A variant of `exampleFlash` for the same system-part version `v`: the system
header has other address fields, another platform id and another dependency, the
factory partition is now readable, and no checksum verifies. -/
def exampleFlashVariant (v : Nat) : Flash :=
  { FLASH_ModuleInfo := fun a =>
      if a = 0x3C000 then some bootloaderHeader
      else if a = 0x18000 then
        some { module_start_address := 0, module_end_address := 0xFFFFFFFF,
               module_version := v, platform_id := 6, module_function := 4,
               module_index := 1, dependency := ⟨2, 9, 65535⟩ }
      else if a = 0x37000 then some userHeader
      else if a = 0x1021000 then some bootloaderHeader
      else none
    FLASH_VerifyCRC32 := fun _ _ => false }

/-- A heap on which `malloc` succeeds and returns a block of all-zero records. -/
def exampleHeap : Heap := { malloc := fun _ => some (fun _ => hal_module_t.zeroed) }

/-- An empty `hal_system_info_t` to construct the inventory into. -/
def emptyInfo : hal_system_info_t :=
  { platform_id := 0, modules := none, module_count := 0, key_values := 0, key_value_count := 0 }

/-- A flash for the build without `MODULAR_FIRMWARE` in which no partition has a
readable header. -/
def blankFlash : Flash :=
  { FLASH_ModuleInfo := fun _ => none, FLASH_VerifyCRC32 := fun _ _ => false }

/-- The key `(function, index)` under which `find_module_bounds` looks an entry up. -/
def bounds_key (b : module_bounds_t) : Nat × Nat := (b.module_function, b.module_index)

/-- The lookup as the spec words it: linear scan of the table, the first entry whose
function and index both equal the query, or not-found. -/
def find_bounds_spec (tbl : List module_bounds_t) (f i : Nat) : Option module_bounds_t :=
  tbl.find? (fun b => decide (b.module_function = f ∧ b.module_index = i))

/-- Every partition descriptor compiled into either build: both tables and both
scratch partitions. -/
def all_partitions (d : Decls) : List module_bounds_t :=
  Modular.module_bounds d ++ [Modular.module_ota d]
    ++ Monolithic.module_bounds d ++ [Monolithic.module_ota d]

/-- The four check flags are independently combinable (spec, external interfaces):
each is one bit of the 16-bit masks, and the four bits are different. The values
themselves come from a header outside the sources. -/
def ValidationFlagsIndependent (d : Decls) : Prop :=
  ∃ kI kD kR kP : Nat, kI < 16 ∧ kD < 16 ∧ kR < 16 ∧ kP < 16
    ∧ kI ≠ kD ∧ kI ≠ kR ∧ kI ≠ kP ∧ kD ≠ kR ∧ kD ≠ kP ∧ kR ≠ kP
    ∧ d.MODULE_VALIDATION_INTEGRITY = 2 ^ kI
    ∧ d.MODULE_VALIDATION_DEPENDENCIES = 2 ^ kD
    ∧ d.MODULE_VALIDATION_RANGE = 2 ^ kR
    ∧ d.MODULE_VALIDATION_PLATFORM = 2 ^ kP

/-- Modelled from the spec: the test "a checksum over `[a, b)` equals the stored CRC
value". The checksum routine is a collaborator outside the sources; the test is read
off its call `FLASH_VerifyCRC32(FLASH_INTERNAL, a, b - a)`, start address and length
(32-bit). -/
def checksum_matches (fl : Flash) (a b : Nat) : Bool :=
  fl.FLASH_VerifyCRC32 a ((b + 2 ^ 32 - a) % 2 ^ 32)

/-- A header without dependency that declares `(USER_PART, 2)` and ends inside the
user partition, with `module_start_address = s`. -/
def plainUserHeader (s : Nat) : module_info_t :=
  { module_start_address := s, module_end_address := 0x3A000, module_version := 1,
    platform_id := 103, module_function := 5, module_index := 2,
    dependency := ⟨0, 0, 0⟩ }

/-- A flash that holds the header `h` at address `a` and nothing else readable, and
on which exactly the checksum over `len` bytes from `a` verifies. -/
def singleModuleFlash (a : Nat) (h : module_info_t) (len : Nat) : Flash :=
  { FLASH_ModuleInfo := fun x => if x = a then some h else none
    FLASH_VerifyCRC32 := fun x n => decide (x = a) && decide (n = len) }

/-- The example declarations with the absent accessor `module_length` replaced by an
arbitrary function `ml` of the header. -/
def exampleDeclsWith (ml : module_info_t → Nat) : Decls :=
  { exampleDecls with module_length := ml }

/-- The flash-write collaborators `FLASH_Begin`, `FLASH_Update` and `FLASH_End`
(declared outside the sources) over a device state `σ`. `FLASH_Begin` reports an
outcome that its caller discards; `FLASH_Update` returns an `int`. -/
structure FlashDriver (σ : Type) where
  FLASH_Begin : σ → Nat → Nat → Bool × σ
  FLASH_Update : σ → List Nat → Nat → Nat → Int × σ
  FLASH_End : σ → σ

/-- The macro `FACTORY_RESET_FW_ADDRESS` of `hw_layout.h`. -/
def FACTORY_RESET_FW_ADDRESS : Nat := 0x0004000

/-- The macro `FLASH_FW_ADDRESS` of `hw_layout.h`. -/
def FLASH_FW_ADDRESS : Nat := 0x021000

/-- The macro `FLASH_LENGTH` of `hw_layout.h`. -/
def FLASH_LENGTH : Nat := 0x040000

/-- The conversion of an `int` value to `int32_t` (two's complement wrap-around). -/
def to_int32 (x : Int) : Int := (x + 2 ^ 31) % 2 ^ 32 - 2 ^ 31

/-- The conversion of an integer value to `uint32_t`. -/
def to_uint32 (x : Int) : Nat := (x % 2 ^ 32).toNat

/-- The function `HAL_OTA_FlashAddress`: `return FLASH_FW_ADDRESS;` as `uint32_t`. -/
def HAL_OTA_FlashAddress : Nat := to_uint32 (FLASH_FW_ADDRESS : Int)

/-- The function `HAL_OTA_FlashLength`:
`return (int32_t)(FLASH_LENGTH - FLASH_FW_ADDRESS);` as `uint32_t`. -/
def HAL_OTA_FlashLength : Nat :=
  to_uint32 (to_int32 ((FLASH_LENGTH : Int) - (FLASH_FW_ADDRESS : Int)))

/-- The function `HAL_OTA_ChunkSize`. -/
def HAL_OTA_ChunkSize : Nat := 512

/-- The function `HAL_FLASH_Begin`: `FLASH_Begin(address, length); return true;`. -/
def HAL_FLASH_Begin {σ : Type} (drv : FlashDriver σ) (s : σ) (address length : Nat) :
    Bool × σ :=
  let r := drv.FLASH_Begin s address length
  (true, r.2)

/-- The function `HAL_FLASH_Update`: `return FLASH_Update(pBuffer, address, length);`. -/
def HAL_FLASH_Update {σ : Type} (drv : FlashDriver σ) (s : σ) (pBuffer : List Nat)
    (address length : Nat) : Int × σ :=
  drv.FLASH_Update s pBuffer address length

/-- The function `HAL_FLASH_End`: `FLASH_End(); return HAL_UPDATE_APPLIED_PENDING_RESTART;`. -/
def HAL_FLASH_End {σ : Type} (d : Decls) (drv : FlashDriver σ) (s : σ) : Nat × σ :=
  (d.HAL_UPDATE_APPLIED_PENDING_RESTART, drv.FLASH_End s)

/-- A driver used to run the session functions: the state is the log of accepted
writes, `FLASH_Begin` reports failure, `FLASH_Update` rejects an empty buffer with `-1`
and otherwise accepts the chunk and returns its length. -/
def exampleDriver : FlashDriver (List (Nat × Nat)) :=
  { FLASH_Begin := fun s _ _ => (false, s)
    FLASH_Update := fun s buf a l =>
      if buf = [] then (-1, s) else ((l : Int), (a, l) :: s)
    FLASH_End := fun s => s }

/-- The variable `sys_health_cache` of `syshealth_hal.c` is the state; `eSystemHealth`
values are compared as integers. The function `HAL_Set_Sys_Health(health)`:
`if (health > sys_health_cache) sys_health_cache = health;` returns the new state. -/
def HAL_Set_Sys_Health (sys_health_cache : Int) (health : Int) : Int :=
  if health > sys_health_cache then health else sys_health_cache

/-- The function `HAL_Get_Sys_Health`: `return sys_health_cache;`. -/
def HAL_Get_Sys_Health (sys_health_cache : Int) : Int := sys_health_cache

/-- Two partitions are disjoint as half-open ranges `[start_address, end_address)`. -/
def disjoint_ranges (P Q : module_bounds_t) : Prop :=
  P.end_address ≤ Q.start_address ∨ Q.end_address ≤ P.start_address

/-! ## Theorems -/

/-! ## Bit-level helper lemmas -/

theorem testBit_or16 (x f i : Nat) :
    (or16 x f).testBit i = (decide (i < 16) && (x.testBit i || f.testBit i)) := by
  unfold or16
  rw [Nat.testBit_mod_two_pow, Nat.testBit_or]

theorem or16_lt (x f : Nat) : or16 x f < 2 ^ 16 := by
  unfold or16; exact Nat.mod_lt _ (by norm_num)

theorem and_two_pow_ne_zero_iff (x k : Nat) : x &&& 2 ^ k ≠ 0 ↔ x.testBit k = true := by
  constructor
  · intro h
    by_contra hb
    apply h
    apply Nat.eq_of_testBit_eq
    intro i
    simp [Nat.testBit_two_pow]
    intro hx hk
    subst hk
    exact hb hx
  · intro h h0
    have := congrArg (fun n => n.testBit k) h0
    simp [Nat.testBit_two_pow, h] at this

theorem and_compl16_eq_zero (x y : Nat) (hx : x < 2 ^ 16)
    (h : ∀ i, i < 16 → x.testBit i = true → y.testBit i = true) :
    x &&& (65535 ^^^ y) = 0 := by
  apply Nat.eq_of_testBit_eq
  intro i
  have e : (65535 : Nat) = 2 ^ 16 - 1 := by norm_num
  rw [e]
  simp only [Nat.testBit_and, Nat.testBit_xor, Nat.testBit_two_pow_sub_one, Nat.zero_testBit]
  by_cases hi : i < 16
  · cases hxi : x.testBit i
    · simp
    · simp [hi, h i hi hxi]
  · have : x.testBit i = false := by
      apply Nat.testBit_lt_two_pow
      exact lt_of_lt_of_le hx (Nat.pow_le_pow_right (by norm_num) (by omega))
    simp [this]

/-! ## Inversion of `fetch_module` -/

/-- Inversion of `fetch_module`: a produced record has one of three shapes. -/
theorem fetch_module_ok_cases (d : Decls) (tbl : List module_bounds_t) (fl : Flash)
    (target : hal_module_t) (bounds : module_bounds_t) (uo : Bool) (cf : Nat)
    (r : hal_module_t) (b : Bool)
    (h : fetch_module d tbl fl target bounds uo cf = .ok (r, b)) :
    (fl.FLASH_ModuleInfo bounds.start_address = none ∧ b = false ∧
      r = { hal_module_t.zeroed with bounds := bounds })
    ∨ (∃ info eo, fl.FLASH_ModuleInfo bounds.start_address = some info ∧
        find_module_bounds tbl (module_function info) (module_index info) = .ok eo ∧
        (∀ eb, eo = some eb →
          in_range (info.module_end_address % 2 ^ 32) eb.start_address eb.end_address = false) ∧
        b = false ∧
        r = { hal_module_t.zeroed with bounds := bounds, validity_checked := checked_mask d cf })
    ∨ (∃ info eb deps, fl.FLASH_ModuleInfo bounds.start_address = some info ∧
        find_module_bounds tbl (module_function info) (module_index info) = .ok (some eb) ∧
        in_range (info.module_end_address % 2 ^ 32) eb.start_address eb.end_address = true ∧
        validate_module_dependencies d tbl fl bounds uo = .ok deps ∧
        b = true ∧
        r = { bounds := bounds, info := some info, crc := info.module_end_address,
              suffix := (info.module_end_address + 2 ^ 32
                - d.sizeof_module_info_suffix_t % 2 ^ 32) % 2 ^ 32,
              validity_checked := checked_mask d cf,
              validity_result := result_mask d
                (decide (d.PLATFORM_ID = module_platform_id info)) deps
                (decide (checked_mask d cf &&& d.MODULE_VALIDATION_INTEGRITY ≠ 0) &&
                  fl.FLASH_VerifyCRC32 bounds.start_address (d.module_length info)) }) := by
  unfold fetch_module at h
  simp only [locate_module, memset_zero] at h
  cases hinfo : fl.FLASH_ModuleInfo bounds.start_address with
  | none =>
    rw [hinfo] at h
    simp only [Except.ok.injEq, Prod.mk.injEq] at h
    left
    exact ⟨rfl, h.2.symm, h.1.symm⟩
  | some info =>
    rw [hinfo] at h
    right
    cases hfind : find_module_bounds tbl (module_function info) (module_index info) with
    | error e => simp [hfind] at h
    | ok eo =>
      simp only [hfind] at h
      cases eo with
      | none =>
        simp only [Bool.false_eq_true, if_false, Except.ok.injEq, Prod.mk.injEq] at h
        left
        refine ⟨info, none, rfl, hfind, ?_, ?_, ?_⟩
        · intro eb he; cases he
        · simpa using h.2.symm
        · rw [← h.1]; rfl
      | some eb =>
        cases hr : in_range (info.module_end_address % 2 ^ 32) eb.start_address eb.end_address with
        | false =>
          simp only [hr, Bool.false_eq_true, if_false, Except.ok.injEq, Prod.mk.injEq] at h
          left
          refine ⟨info, some eb, rfl, hfind, ?_, ?_, ?_⟩
          · intro eb2 he; cases he; exact hr
          · simpa using h.2.symm
          · rw [← h.1]; rfl
        | true =>
          simp only [hr, if_true] at h
          right
          cases hv : validate_module_dependencies d tbl fl bounds uo with
          | error e => simp [hv] at h
          | ok deps =>
            simp only [hv, Except.ok.injEq, Prod.mk.injEq] at h
            refine ⟨info, eb, deps, rfl, hfind, hr, rfl, ?_, ?_⟩
            · rw [← h.2]
              cases deps <;> simp <;> split <;> rfl
            · rw [← h.1]
              cases deps <;>
                cases hc : fl.FLASH_VerifyCRC32 bounds.start_address (d.module_length info) <;>
                by_cases hi : checked_mask d cf &&& d.MODULE_VALIDATION_INTEGRITY = 0 <;>
                simp [result_mask, checked_mask, hal_module_t.zeroed, hi, hc] <;>
                simp [checked_mask] at hi <;> simp [hi]

theorem result_mask_testBit (d : Decls) (p dp ig : Bool) (i : Nat) :
    (result_mask d p dp ig).testBit i =
      (decide (i < 16) && (d.MODULE_VALIDATION_RANGE.testBit i
        || (p && d.MODULE_VALIDATION_PLATFORM.testBit i)
        || (dp && d.MODULE_VALIDATION_DEPENDENCIES.testBit i)
        || (ig && d.MODULE_VALIDATION_INTEGRITY.testBit i))) := by
  cases p <;> cases dp <;> cases ig <;>
    simp only [result_mask, testBit_or16, Nat.zero_testBit, if_true, if_false,
      Bool.false_eq_true] <;>
    cases decide (i < 16) <;> simp

theorem result_mask_lt (d : Decls) (p dp ig : Bool) : result_mask d p dp ig < 2 ^ 16 := by
  cases p <;> cases dp <;> cases ig <;> simp only [result_mask] <;> exact or16_lt _ _

theorem checked_mask_testBit (d : Decls) (cf i : Nat) :
    (checked_mask d cf).testBit i =
      (decide (i < 16) && (d.MODULE_VALIDATION_RANGE.testBit i
        || d.MODULE_VALIDATION_DEPENDENCIES.testBit i
        || d.MODULE_VALIDATION_PLATFORM.testBit i
        || (decide (i < 16) && cf.testBit i))) := by
  unfold checked_mask
  rw [Nat.testBit_mod_two_pow, Nat.testBit_or, Nat.testBit_or, Nat.testBit_or,
    Nat.testBit_mod_two_pow]

/-- C1. Every record produced by `fetch_module` has `passed ⊆ checked`:
`validity_result AND NOT validity_checked = 0` on the 16 bits of the masks, and the
INTEGRITY bit is in `validity_result` only if it was requested in `check_flags`.
The flag values come from a header outside the sources; they enter as the
assumption that INTEGRITY is a single bit that none of RANGE, DEPENDENCIES and
PLATFORM contains. -/
theorem fetch_module_passed_subset_checked (d : Decls) (tbl : List module_bounds_t)
    (fl : Flash) (target : hal_module_t) (bounds : module_bounds_t) (uo : Bool) (cf : Nat)
    (r : hal_module_t) (b : Bool) (k : Nat)
    (hI : d.MODULE_VALIDATION_INTEGRITY = 2 ^ k)
    (hdisj : d.MODULE_VALIDATION_INTEGRITY &&& (d.MODULE_VALIDATION_RANGE
      ||| d.MODULE_VALIDATION_DEPENDENCIES ||| d.MODULE_VALIDATION_PLATFORM) = 0)
    (h : fetch_module d tbl fl target bounds uo cf = .ok (r, b)) :
    r.validity_result &&& (65535 ^^^ r.validity_checked) = 0
      ∧ (r.validity_result &&& d.MODULE_VALIDATION_INTEGRITY ≠ 0 →
          (cf % 2 ^ 16) &&& d.MODULE_VALIDATION_INTEGRITY ≠ 0) := by
  have hk : (d.MODULE_VALIDATION_RANGE.testBit k || d.MODULE_VALIDATION_DEPENDENCIES.testBit k
      || d.MODULE_VALIDATION_PLATFORM.testBit k) = false := by
    have := congrArg (fun n => n.testBit k) hdisj
    simpa [hI, Nat.testBit_two_pow_self] using this
  rcases fetch_module_ok_cases d tbl fl target bounds uo cf r b h with
    ⟨_, _, hr⟩ | ⟨info, eo, _, _, _, _, hr⟩ | ⟨info, eb, deps, _, _, _, _, _, hr⟩
  · subst hr; simp [hal_module_t.zeroed]
  · subst hr; simp [hal_module_t.zeroed]
  · subst hr
    simp only
    constructor
    · apply and_compl16_eq_zero _ _ (result_mask_lt _ _ _ _)
      intro i hi hb
      rw [result_mask_testBit] at hb
      rw [checked_mask_testBit]
      simp only [hi, decide_True, Bool.true_and, Bool.or_eq_true, Bool.and_eq_true,
        decide_eq_true_eq] at hb ⊢
      rcases hb with ((hb | hb) | hb) | hb
      · exact Or.inl (Or.inl (Or.inl hb))
      · exact Or.inl (Or.inr hb.2)
      · exact Or.inl (Or.inl (Or.inr hb.2))
      · obtain ⟨⟨hc, _⟩, hbit⟩ := hb
        rw [hI, Nat.testBit_two_pow] at hbit
        have hki : k = i := by simpa using hbit
        subst hki
        rw [hI, and_two_pow_ne_zero_iff, checked_mask_testBit] at hc
        simpa [hi] using hc
    · intro hres
      rw [hI, and_two_pow_ne_zero_iff, result_mask_testBit] at hres
      rw [hI, and_two_pow_ne_zero_iff, Nat.testBit_mod_two_pow]
      simp only [Bool.or_eq_true, Bool.and_eq_true, decide_eq_true_eq, Bool.or_eq_false_iff] at hres hk
      obtain ⟨hlt, hres⟩ := hres
      rcases hres with ((hb | hb) | hb) | hb
      · rw [hk.1.1] at hb; cases hb
      · rw [hk.2] at hb; cases hb.2
      · rw [hk.1.2] at hb; cases hb.2
      · obtain ⟨⟨hc, _⟩, _⟩ := hb
        rw [and_two_pow_ne_zero_iff, checked_mask_testBit] at hc
        simp only [hlt, decide_True, Bool.true_and, Bool.or_eq_true] at hc
        rcases hc with ((hb | hb) | hb) | hb
        · rw [hk.1.1] at hb; cases hb
        · rw [hk.1.2] at hb; cases hb
        · rw [hk.2] at hb; cases hb
        · simp [hlt, hb]

/-- Witness for C1: the user part of a modular flash whose dependency is met. -/
theorem fetch_module_passed_subset_checked_witness :
    exampleDecls.MODULE_VALIDATION_INTEGRITY = 2 ^ 1
    ∧ exampleDecls.MODULE_VALIDATION_INTEGRITY &&& (exampleDecls.MODULE_VALIDATION_RANGE
        ||| exampleDecls.MODULE_VALIDATION_DEPENDENCIES
        ||| exampleDecls.MODULE_VALIDATION_PLATFORM) = 0
    ∧ fetch_module exampleDecls (Modular.module_bounds exampleDecls)
        (exampleFlash (some (systemHeader 7 ⟨0, 0, 0⟩))) hal_module_t.zeroed
        (Modular.module_user exampleDecls) false 2
      = .ok ({ bounds := Modular.module_user exampleDecls, info := some userHeader,
               crc := 0x3A000, suffix := 0x3A000 - 36,
               validity_checked := 30, validity_result := 30 }, true)
    ∧ (30 &&& (65535 ^^^ 30) = 0 ∧ (30 &&& 2 ≠ 0 → (2 % 2 ^ 16) &&& 2 ≠ 0)) :=
  ⟨by decide, by decide, by rfl,
   fetch_module_passed_subset_checked exampleDecls (Modular.module_bounds exampleDecls)
     (exampleFlash (some (systemHeader 7 ⟨0, 0, 0⟩))) hal_module_t.zeroed
     (Modular.module_user exampleDecls) false 2 _ true 1 (by decide) (by decide) (by rfl)⟩

theorem and_ne_zero_of_testBit (x y i : Nat) (hx : x.testBit i = true) (hy : y.testBit i = true) :
    x &&& y ≠ 0 := by
  intro h0
  have := congrArg (fun n => n.testBit i) h0
  simp [hx, hy] at this

theorem result_mask_and_range_ne_zero (d : Decls) (p dp ig : Bool)
    (hR : d.MODULE_VALIDATION_RANGE % 2 ^ 16 ≠ 0) :
    result_mask d p dp ig &&& d.MODULE_VALIDATION_RANGE ≠ 0 := by
  obtain ⟨i, hi⟩ := Nat.ne_zero_implies_bit_true hR
  rw [Nat.testBit_mod_two_pow] at hi
  simp only [Bool.and_eq_true, decide_eq_true_eq] at hi
  apply and_ne_zero_of_testBit _ _ i _ hi.2
  rw [result_mask_testBit]
  simp [hi.1, hi.2]

/-- C2. In every record produced by `fetch_module` the header reference `info` is
present if and only if the RANGE bit is set in `validity_result`, and the returned
`bool` is `true` exactly when the header is present. RANGE comes from a header
outside the sources; it enters as the assumption that it is non-zero as a
`uint16_t` flag. -/
theorem fetch_module_header_iff_range (d : Decls) (tbl : List module_bounds_t)
    (fl : Flash) (target : hal_module_t) (bounds : module_bounds_t) (uo : Bool) (cf : Nat)
    (r : hal_module_t) (b : Bool)
    (hR : d.MODULE_VALIDATION_RANGE % 2 ^ 16 ≠ 0)
    (h : fetch_module d tbl fl target bounds uo cf = .ok (r, b)) :
    (r.info.isSome = true ↔ r.validity_result &&& d.MODULE_VALIDATION_RANGE ≠ 0)
      ∧ (b = true ↔ r.info.isSome = true) := by
  rcases fetch_module_ok_cases d tbl fl target bounds uo cf r b h with
    ⟨_, hb, hr⟩ | ⟨info, eo, _, _, _, hb, hr⟩ | ⟨info, eb, deps, _, _, _, _, hb, hr⟩
  · subst hr hb; simp [hal_module_t.zeroed]
  · subst hr hb; simp [hal_module_t.zeroed]
  · subst hr hb
    simp only [Option.isSome_some, true_iff, and_true]
    exact result_mask_and_range_ne_zero d _ _ _ hR

/-- Witness for C2: the user part of a modular flash, header surfaced and RANGE set. -/
theorem fetch_module_header_iff_range_witness :
    exampleDecls.MODULE_VALIDATION_RANGE % 2 ^ 16 ≠ 0
    ∧ fetch_module exampleDecls (Modular.module_bounds exampleDecls)
        (exampleFlash (some (systemHeader 3 ⟨0, 0, 0⟩))) hal_module_t.zeroed
        (Modular.module_user exampleDecls) false 0
      = .ok ({ bounds := Modular.module_user exampleDecls, info := some userHeader,
               crc := 0x3A000, suffix := 0x3A000 - 36,
               validity_checked := 28, validity_result := 24 }, true)
    ∧ (((some userHeader).isSome = true ↔ 24 &&& exampleDecls.MODULE_VALIDATION_RANGE ≠ 0)
        ∧ (true = true ↔ (some userHeader).isSome = true)) :=
  ⟨by decide, by rfl,
   fetch_module_header_iff_range exampleDecls (Modular.module_bounds exampleDecls)
     (exampleFlash (some (systemHeader 3 ⟨0, 0, 0⟩))) hal_module_t.zeroed
     (Modular.module_user exampleDecls) false 0 _ true (by decide) (by rfl)⟩

/-- C3. Let the bytes of partition `X` be readable as a header `info`. If
`find_module_bounds(info.function, info.index)` finds no partition, or finds one
whose inclusive bounds do not contain `info.module_end_address`, then `fetch_module`
returns `false` and the record has an absent header, absent `crc` and `suffix`
references, an empty `validity_result`, and `bounds` equal to `X`. -/
theorem fetch_module_rejects_out_of_range (d : Decls) (tbl : List module_bounds_t)
    (fl : Flash) (target : hal_module_t) (X : module_bounds_t) (uo : Bool) (cf : Nat)
    (info : module_info_t)
    (hinfo : fl.FLASH_ModuleInfo X.start_address = some info)
    (hfind : find_module_bounds tbl (module_function info) (module_index info) = .ok none
      ∨ ∃ eb, find_module_bounds tbl (module_function info) (module_index info) = .ok (some eb)
          ∧ ¬ (eb.start_address ≤ info.module_end_address % 2 ^ 32
                ∧ info.module_end_address % 2 ^ 32 ≤ eb.end_address)) :
    ∃ r, fetch_module d tbl fl target X uo cf = .ok (r, false)
      ∧ r.info = none ∧ r.crc = 0 ∧ r.suffix = 0 ∧ r.validity_result = 0 ∧ r.bounds = X := by
  rcases hfind with hnone | ⟨eb, hsome, hout⟩
  · refine ⟨{ hal_module_t.zeroed with bounds := X, validity_checked := checked_mask d cf }, ?_,
      rfl, rfl, rfl, rfl, rfl⟩
    unfold fetch_module
    simp only [locate_module, memset_zero, hinfo, hnone, Bool.false_eq_true, if_false]
    rfl
  · refine ⟨{ hal_module_t.zeroed with bounds := X, validity_checked := checked_mask d cf }, ?_,
      rfl, rfl, rfl, rfl, rfl⟩
    have hr : in_range (info.module_end_address % 2 ^ 32) eb.start_address eb.end_address
        = false := by
      simp only [in_range, ge_iff_le, Bool.and_eq_false_iff, decide_eq_false_iff_not]
      by_cases h1 : eb.start_address ≤ info.module_end_address % 2 ^ 32
      · right; intro h2; exact hout ⟨h1, h2⟩
      · left; exact h1
    unfold fetch_module
    simp only [locate_module, memset_zero, hinfo, hsome, hr, Bool.false_eq_true, if_false]
    rfl

/-- Witness for C3: a header in the user partition that declares `(SYSTEM_PART, 2)`. -/
theorem fetch_module_rejects_out_of_range_witness :
    (userOnlyFlash strayHeader).FLASH_ModuleInfo (Modular.module_user exampleDecls).start_address
      = some strayHeader
    ∧ find_module_bounds (Modular.module_bounds exampleDecls) (module_function strayHeader)
        (module_index strayHeader) = .ok none
    ∧ ∃ r, fetch_module exampleDecls (Modular.module_bounds exampleDecls)
        (userOnlyFlash strayHeader) hal_module_t.zeroed (Modular.module_user exampleDecls) true 2
          = .ok (r, false)
      ∧ r.info = none ∧ r.crc = 0 ∧ r.suffix = 0 ∧ r.validity_result = 0
      ∧ r.bounds = Modular.module_user exampleDecls :=
  ⟨by rfl, by rfl,
   fetch_module_rejects_out_of_range exampleDecls (Modular.module_bounds exampleDecls)
     (userOnlyFlash strayHeader) hal_module_t.zeroed (Modular.module_user exampleDecls) true 2
     strayHeader (by rfl) (Or.inl (by rfl))⟩

/-- C4 (as stated, refuted). Fetching the factory partition of a flash with no readable
header there, with INTEGRITY requested, produces a headerless record whose
`validity_checked` is `0`, not `RANGE | DEPENDENCIES | PLATFORM | INTEGRITY`. -/
theorem fetch_module_unreadable_checked_counterexample :
    (exampleFlash none).FLASH_ModuleInfo (Modular.module_factory exampleDecls).start_address = none
    ∧ ∃ r, fetch_module exampleDecls (Modular.module_bounds exampleDecls) (exampleFlash none)
        hal_module_t.zeroed (Modular.module_factory exampleDecls) false
        exampleDecls.MODULE_VALIDATION_INTEGRITY = .ok (r, false)
      ∧ r.info = none
      ∧ r.validity_checked = 0
      ∧ r.validity_checked ≠
          exampleDecls.MODULE_VALIDATION_RANGE ||| exampleDecls.MODULE_VALIDATION_DEPENDENCIES
            ||| exampleDecls.MODULE_VALIDATION_PLATFORM
            ||| exampleDecls.MODULE_VALIDATION_INTEGRITY :=
  ⟨by rfl, { hal_module_t.zeroed with bounds := Modular.module_factory exampleDecls },
    by rfl, by rfl, by rfl, by decide⟩

/-- C4 (amended). When `locate_module` yields no header, `fetch_module` returns `false`
and the record is all-zero apart from `bounds`: the header is absent and both the
checked mask and the passed mask are empty. -/
theorem fetch_module_unreadable (d : Decls) (tbl : List module_bounds_t)
    (fl : Flash) (target : hal_module_t) (bounds : module_bounds_t) (uo : Bool) (cf : Nat)
    (hinfo : fl.FLASH_ModuleInfo bounds.start_address = none) :
    ∃ r, fetch_module d tbl fl target bounds uo cf = .ok (r, false)
      ∧ r.info = none ∧ r.validity_checked = 0 ∧ r.validity_result = 0
      ∧ r = { hal_module_t.zeroed with bounds := bounds } := by
  refine ⟨{ hal_module_t.zeroed with bounds := bounds }, ?_, rfl, rfl, rfl, rfl⟩
  unfold fetch_module
  simp only [locate_module, memset_zero, hinfo]
  rfl

/-- Witness for C4 (amended): the unreadable factory partition. -/
theorem fetch_module_unreadable_witness :
    (exampleFlash none).FLASH_ModuleInfo (Modular.module_factory exampleDecls).start_address = none
    ∧ ∃ r, fetch_module exampleDecls (Modular.module_bounds exampleDecls) (exampleFlash none)
        hal_module_t.zeroed (Modular.module_factory exampleDecls) false 2 = .ok (r, false)
      ∧ r.info = none ∧ r.validity_checked = 0 ∧ r.validity_result = 0
      ∧ r = { hal_module_t.zeroed with bounds := Modular.module_factory exampleDecls } :=
  ⟨by rfl, fetch_module_unreadable exampleDecls (Modular.module_bounds exampleDecls)
    (exampleFlash none) hal_module_t.zeroed (Modular.module_factory exampleDecls) false 2
    (by rfl)⟩

/-- C5 (the code at the failing input). The user partition holds a readable header
whose dependency `(SYSTEM_PART, 2)` has no partition in the modular table:
`find_module_bounds` returns `NULL`, and `validate_module_dependencies` passes that
`NULL` to `locate_module`, which reads `bounds->start_address` through it. The call
does not return `false`; `fetch_module` on the same partition inherits the fault. -/
theorem validate_module_dependencies_missing_partition_faults :
    (userOnlyFlash userOnPart2Header).FLASH_ModuleInfo
        (Modular.module_user exampleDecls).start_address = some userOnPart2Header
    ∧ userOnPart2Header.dependency.module_function ≠ exampleDecls.MODULE_FUNCTION_NONE
    ∧ find_module_bounds (Modular.module_bounds exampleDecls)
        userOnPart2Header.dependency.module_function
        userOnPart2Header.dependency.module_index = .ok none
    ∧ validate_module_dependencies exampleDecls (Modular.module_bounds exampleDecls)
        (userOnlyFlash userOnPart2Header) (Modular.module_user exampleDecls) false
        = .error Fault.null_dereference
    ∧ fetch_module exampleDecls (Modular.module_bounds exampleDecls)
        (userOnlyFlash userOnPart2Header) hal_module_t.zeroed
        (Modular.module_user exampleDecls) false 2 = .error Fault.null_dereference :=
  ⟨by rfl, by decide, by rfl, by rfl, by rfl⟩

/-- The code on every input of the kind C5 describes: with a readable header, a declared
dependency, no user-code exemption and no partition for the dependency, the call ends
in the `NULL` dereference. -/
theorem validate_module_dependencies_missing_partition (d : Decls)
    (tbl : List module_bounds_t) (fl : Flash) (bounds : module_bounds_t) (uo : Bool)
    (m : module_info_t)
    (hinfo : fl.FLASH_ModuleInfo bounds.start_address = some m)
    (hdep : m.dependency.module_function ≠ d.MODULE_FUNCTION_NONE)
    (hex : ¬ (uo = true ∧ module_function m = d.MODULE_FUNCTION_USER_PART))
    (hfind : find_module_bounds tbl m.dependency.module_function m.dependency.module_index
      = .ok none) :
    validate_module_dependencies d tbl fl bounds uo = .error Fault.null_dereference := by
  unfold validate_module_dependencies
  simp only [locate_module, hinfo, hdep, hex, or_self, if_false, hfind]

/-- C6. Let the header `m` of the module be readable, declare a dependency with
function other than NONE and not be exempted as user code, and let the dependency
partition `b` be found with a readable header `dh`. Then
`validate_module_dependencies` returns `true` if and only if
`dh.module_version ≥ m.dependency.module_version` (equality accepted). -/
theorem validate_module_dependencies_version (d : Decls)
    (tbl : List module_bounds_t) (fl : Flash) (bounds : module_bounds_t) (uo : Bool)
    (m dh : module_info_t) (b : module_bounds_t)
    (hinfo : fl.FLASH_ModuleInfo bounds.start_address = some m)
    (hdep : m.dependency.module_function ≠ d.MODULE_FUNCTION_NONE)
    (hex : ¬ (uo = true ∧ module_function m = d.MODULE_FUNCTION_USER_PART))
    (hfind : find_module_bounds tbl m.dependency.module_function m.dependency.module_index
      = .ok (some b))
    (hdh : fl.FLASH_ModuleInfo b.start_address = some dh) :
    ∃ v, validate_module_dependencies d tbl fl bounds uo = .ok v
      ∧ (v = true ↔ dh.module_version ≥ m.dependency.module_version) := by
  refine ⟨decide (dh.module_version ≥ m.dependency.module_version), ?_, by simp⟩
  unfold validate_module_dependencies
  simp only [locate_module, hinfo, hdep, hex, or_self, if_false, hfind, hdh]

/-- Witness for C6: the user part requires version 5 and system part 1 declares
exactly 5 (equality is accepted). -/
theorem validate_module_dependencies_version_witness :
    (exampleFlash (some (systemHeader 5 ⟨0, 0, 0⟩))).FLASH_ModuleInfo
        (Modular.module_user exampleDecls).start_address = some userHeader
    ∧ ∃ v, validate_module_dependencies exampleDecls (Modular.module_bounds exampleDecls)
        (exampleFlash (some (systemHeader 5 ⟨0, 0, 0⟩))) (Modular.module_user exampleDecls)
        false = .ok v
      ∧ (v = true ↔ (systemHeader 5 ⟨0, 0, 0⟩).module_version
          ≥ userHeader.dependency.module_version) :=
  ⟨by rfl,
   validate_module_dependencies_version exampleDecls (Modular.module_bounds exampleDecls)
    (exampleFlash (some (systemHeader 5 ⟨0, 0, 0⟩))) (Modular.module_user exampleDecls) false
    userHeader (systemHeader 5 ⟨0, 0, 0⟩) (Modular.module_system_part1 exampleDecls)
    (by rfl) (by decide) (by decide) (by rfl) (by rfl)⟩

/-- C7. For every table and flash: if the module's header is readable and either its
`dependency.module_function` is NONE, or `userOptional` is set and the module's own
function is USER_PART, then `validate_module_dependencies` returns `true`; if the
header cannot be read it returns `false`. Neither result depends on the table or on
the flash at any other address: the statement holds for all of them (with the empty
table, where any lookup would fault, included). -/
theorem validate_module_dependencies_shortcuts (d : Decls)
    (tbl : List module_bounds_t) (fl : Flash) (bounds : module_bounds_t) (uo : Bool) :
    (∀ m, fl.FLASH_ModuleInfo bounds.start_address = some m →
        (m.dependency.module_function = d.MODULE_FUNCTION_NONE
          ∨ (uo = true ∧ module_function m = d.MODULE_FUNCTION_USER_PART)) →
        validate_module_dependencies d tbl fl bounds uo = .ok true)
    ∧ (fl.FLASH_ModuleInfo bounds.start_address = none →
        validate_module_dependencies d tbl fl bounds uo = .ok false) := by
  constructor
  · intro m hinfo hcase
    unfold validate_module_dependencies
    simp only [locate_module, hinfo, hcase, if_true]
  · intro hinfo
    unfold validate_module_dependencies
    simp only [locate_module, hinfo]

/-- Witness for C7, on the empty table: the bootloader header (no dependency), the
user header under the waiver, and an unreadable partition. -/
theorem validate_module_dependencies_shortcuts_witness :
    validate_module_dependencies exampleDecls [] (exampleFlash none)
        (Modular.module_bootloader exampleDecls) false = .ok true
    ∧ validate_module_dependencies exampleDecls [] (exampleFlash none)
        (Modular.module_user exampleDecls) true = .ok true
    ∧ validate_module_dependencies exampleDecls [] (exampleFlash none)
        (Modular.module_factory exampleDecls) true = .ok false :=
  ⟨(validate_module_dependencies_shortcuts exampleDecls [] (exampleFlash none)
      (Modular.module_bootloader exampleDecls) false).1 bootloaderHeader (by rfl)
      (Or.inl (by rfl)),
   (validate_module_dependencies_shortcuts exampleDecls [] (exampleFlash none)
      (Modular.module_user exampleDecls) true).1 userHeader (by rfl)
      (Or.inr ⟨rfl, by rfl⟩),
   (validate_module_dependencies_shortcuts exampleDecls [] (exampleFlash none)
      (Modular.module_factory exampleDecls) true).2 (by rfl)⟩

/-- C8. The dependency check is one hop deep. (1) If two flash states give the same
header (or none) at the start of `A`, and, whenever `A`'s declared dependency resolves
to a partition `B`, the headers at the start of `B` are both unreadable or both
readable with the same `module_version`, then `validate_module_dependencies(A)` has
the same outcome in both: `B`'s dependency fields, address fields and platform id,
every checksum and every third partition may differ. (2) If `A`'s header `m` is
readable and `B`'s header `hB` declares a version `≥ m.dependency.module_version`,
the check on `A` passes, whatever `B`'s own dependency is. -/
theorem validate_module_dependencies_one_hop (d : Decls) (tbl : List module_bounds_t)
    (fl1 fl2 : Flash) (A : module_bounds_t) (uo : Bool)
    (hA : fl1.FLASH_ModuleInfo A.start_address = fl2.FLASH_ModuleInfo A.start_address)
    (hB : ∀ m B, fl1.FLASH_ModuleInfo A.start_address = some m →
      find_module_bounds tbl m.dependency.module_function m.dependency.module_index
        = .ok (some B) →
      (fl1.FLASH_ModuleInfo B.start_address).map (fun h => h.module_version)
        = (fl2.FLASH_ModuleInfo B.start_address).map (fun h => h.module_version)) :
    validate_module_dependencies d tbl fl1 A uo = validate_module_dependencies d tbl fl2 A uo
    ∧ (∀ m B hB, fl1.FLASH_ModuleInfo A.start_address = some m →
        find_module_bounds tbl m.dependency.module_function m.dependency.module_index
          = .ok (some B) →
        fl1.FLASH_ModuleInfo B.start_address = some hB →
        hB.module_version ≥ m.dependency.module_version →
        validate_module_dependencies d tbl fl1 A uo = .ok true) := by
  constructor
  · unfold validate_module_dependencies
    simp only [locate_module]
    rw [← hA]
    cases hm : fl1.FLASH_ModuleInfo A.start_address with
    | none => rfl
    | some m =>
      simp only
      split
      · rfl
      · cases hf : find_module_bounds tbl m.dependency.module_function
            m.dependency.module_index with
        | error e => rfl
        | ok ob =>
          cases ob with
          | none => rfl
          | some B =>
            have hv := hB m B hm hf
            simp only
            cases h1 : fl1.FLASH_ModuleInfo B.start_address with
            | none =>
              rw [h1] at hv
              cases h2 : fl2.FLASH_ModuleInfo B.start_address with
              | none => rfl
              | some b2 => rw [h2] at hv; simp at hv
            | some b1 =>
              rw [h1] at hv
              cases h2 : fl2.FLASH_ModuleInfo B.start_address with
              | none => rw [h2] at hv; simp at hv
              | some b2 =>
                rw [h2] at hv
                simp only [Option.map_some', Option.some.injEq] at hv
                simp only [hv]
  · intro m B hB hm hf h1 hge
    unfold validate_module_dependencies
    simp only [locate_module, hm, hf, h1]
    split
    · rfl
    · simp only [ge_iff_le] at hge
      simp [hge]

/-- Witness for C8: `A` = user part (requires system part 1 at version 5), `B` = system
part 1 at version 7 whose own dependency on `C` = `(USER_PART, 1)`, the unreadable
factory partition, at version 9 is unmet. The check on `B` fails, the check on `A`
passes, and it has the same outcome on the variant flash. -/
theorem validate_module_dependencies_one_hop_witness :
    validate_module_dependencies exampleDecls (Modular.module_bounds exampleDecls)
        (exampleFlash (some (systemHeader 7 ⟨5, 1, 9⟩)))
        (Modular.module_system_part1 exampleDecls) false = .ok false
    ∧ (validate_module_dependencies exampleDecls (Modular.module_bounds exampleDecls)
          (exampleFlash (some (systemHeader 7 ⟨5, 1, 9⟩))) (Modular.module_user exampleDecls) false
        = validate_module_dependencies exampleDecls (Modular.module_bounds exampleDecls)
          (exampleFlashVariant 7) (Modular.module_user exampleDecls) false)
    ∧ validate_module_dependencies exampleDecls (Modular.module_bounds exampleDecls)
        (exampleFlash (some (systemHeader 7 ⟨5, 1, 9⟩))) (Modular.module_user exampleDecls) false
        = .ok true :=
  have key := validate_module_dependencies_one_hop exampleDecls
    (Modular.module_bounds exampleDecls) (exampleFlash (some (systemHeader 7 ⟨5, 1, 9⟩)))
    (exampleFlashVariant 7) (Modular.module_user exampleDecls) false (by rfl)
    (by
      intro m B hm hf
      have hm2 : m = userHeader := by
        have h0 : (exampleFlash (some (systemHeader 7 ⟨5, 1, 9⟩))).FLASH_ModuleInfo
            (Modular.module_user exampleDecls).start_address = some userHeader := by rfl
        rw [h0] at hm
        exact (Option.some.inj hm).symm
      subst hm2
      have hf0 : find_module_bounds (Modular.module_bounds exampleDecls)
          userHeader.dependency.module_function userHeader.dependency.module_index
          = .ok (some (Modular.module_system_part1 exampleDecls)) := by rfl
      rw [hf0] at hf
      have hB2 : B = Modular.module_system_part1 exampleDecls := by
        injection hf with hf1
        exact (Option.some.inj hf1).symm
      subst hB2
      rfl)
  ⟨by rfl, key.1,
   key.2 userHeader (Modular.module_system_part1 exampleDecls) (systemHeader 7 ⟨5, 1, 9⟩)
     (by rfl) (by rfl) (by rfl) (by decide)⟩

theorem fetch_module_bounds (d : Decls) (tbl : List module_bounds_t) (fl : Flash)
    (target : hal_module_t) (bounds : module_bounds_t) (uo : Bool) (cf : Nat)
    (r : hal_module_t) (b : Bool)
    (h : fetch_module d tbl fl target bounds uo cf = .ok (r, b)) : r.bounds = bounds := by
  rcases fetch_module_ok_cases d tbl fl target bounds uo cf r b h with
    ⟨_, _, hr⟩ | ⟨info, eo, _, _, _, _, hr⟩ | ⟨info, eb, deps, _, _, _, _, _, hr⟩ <;>
  · subst hr; rfl

/-- The records written by the loop of `HAL_System_Info`: when it completes, it has
appended `n` records, the `j`-th being the one `fetch_module` produces for table entry
`i + j` with `userDepsOptional = false` and `check_flags = MODULE_VALIDATION_INTEGRITY`. -/
theorem HAL_System_Info_loop_ok (d : Decls) (tbl : List module_bounds_t) (fl : Flash)
    (block : Nat → hal_module_t) :
    ∀ (n i : Nat) (done recs : List hal_module_t),
      HAL_System_Info_loop d tbl fl block n i done = .ok recs →
      ∃ rest, recs = done ++ rest ∧ rest.length = n ∧
        ∀ j r, rest[j]? = some r → ∃ b ret, tbl[i + j]? = some b ∧
          fetch_module d tbl fl (block (i + j)) b false d.MODULE_VALIDATION_INTEGRITY
            = .ok (r, ret) := by
  intro n
  induction n with
  | zero =>
    intro i done recs h
    simp only [HAL_System_Info_loop, Except.ok.injEq] at h
    exact ⟨[], by simp [h], rfl, by intro j r hj; simp at hj⟩
  | succ n ih =>
    intro i done recs h
    simp only [HAL_System_Info_loop] at h
    cases hb : tbl[i]? with
    | none => simp [hb] at h
    | some b =>
      simp only [hb] at h
      cases hf : fetch_module d tbl fl (block i) b false d.MODULE_VALIDATION_INTEGRITY with
      | error e => simp [hf] at h
      | ok p =>
        obtain ⟨r0, ret0⟩ := p
        simp only [hf] at h
        obtain ⟨rest, hrec, hlen, hall⟩ := ih (i + 1) (done ++ [r0]) recs h
        refine ⟨r0 :: rest, by simp [hrec], by simp [hlen], ?_⟩
        intro j r hj
        cases j with
        | zero =>
          simp only [List.getElem?_cons_zero, Option.some.injEq] at hj
          subst hj
          exact ⟨b, ret0, by simpa using hb, by simpa using hf⟩
        | succ j =>
          simp only [List.getElem?_cons_succ] at hj
          obtain ⟨b2, ret2, hb2, hf2⟩ := hall j r hj
          have e : i + 1 + j = i + (j + 1) := by omega
          rw [e] at hb2 hf2
          exact ⟨b2, ret2, hb2, hf2⟩

/-- The loop of `HAL_System_Info` cannot complete when it is asked for more
iterations than the table has entries left. -/
theorem HAL_System_Info_loop_past_end (d : Decls) (tbl : List module_bounds_t) (fl : Flash)
    (block : Nat → hal_module_t) :
    ∀ (n i : Nat) (done : List hal_module_t), 0 < n → tbl.length < i + n →
      ∃ e, HAL_System_Info_loop d tbl fl block n i done = .error e := by
  intro n
  induction n with
  | zero =>
    intro i done hpos
    exact absurd hpos (by omega)
  | succ n ih =>
    intro i done _ hlen
    simp only [HAL_System_Info_loop]
    cases hb : tbl[i]? with
    | none => exact ⟨_, rfl⟩
    | some b =>
      have hi : i < tbl.length := by
        by_contra hge
        rw [List.getElem?_eq_none (by omega)] at hb
        cases hb
      simp only
      cases hf : fetch_module d tbl fl (block i) b false d.MODULE_VALIDATION_INTEGRITY with
      | error e => exact ⟨_, rfl⟩
      | ok p =>
        obtain ⟨r0, ret0⟩ := p
        simp only
        exact ih (i + 1) (done ++ [r0]) (by omega) (by omega)

theorem result_mask_deps_bit (d : Decls) (p dp ig : Bool) (k : Nat)
    (hD : d.MODULE_VALIDATION_DEPENDENCIES = 2 ^ k)
    (hdisj : d.MODULE_VALIDATION_DEPENDENCIES &&& (d.MODULE_VALIDATION_RANGE
      ||| d.MODULE_VALIDATION_PLATFORM ||| d.MODULE_VALIDATION_INTEGRITY) = 0)
    (h : result_mask d p dp ig &&& d.MODULE_VALIDATION_DEPENDENCIES ≠ 0) : dp = true := by
  have hk : (d.MODULE_VALIDATION_RANGE.testBit k || d.MODULE_VALIDATION_PLATFORM.testBit k
      || d.MODULE_VALIDATION_INTEGRITY.testBit k) = false := by
    have := congrArg (fun n => n.testBit k) hdisj
    simpa [hD, Nat.testBit_two_pow_self] using this
  rw [hD, and_two_pow_ne_zero_iff, result_mask_testBit] at h
  simp only [Bool.or_eq_true, Bool.and_eq_true, decide_eq_true_eq, Bool.or_eq_false_iff]
    at h hk
  obtain ⟨_, h⟩ := h
  rcases h with ((hb | hb) | hb) | hb
  · rw [hk.1.1] at hb; cases hb
  · rw [hk.1.2] at hb; cases hb.2
  · exact hb.1
  · rw [hk.2] at hb; cases hb.2

/-- C9 (as stated, refuted). Modular build, user part requiring system part 1 at
version 5, system part 1 at version 3: constructing the inventory succeeds, and the
record of the user part (index 2) is a USER_PART module with RANGE passed whose
DEPENDENCIES bit is not set. -/
theorem HAL_System_Info_no_waiver_counterexample :
    ∃ info recs r h,
      HAL_System_Info exampleDecls (Modular.module_bounds exampleDecls)
        (exampleFlash (some (systemHeader 3 ⟨0, 0, 0⟩))) exampleHeap emptyInfo true = .ok info
      ∧ info.modules = some recs ∧ recs[2]? = some r ∧ r.info = some h
      ∧ module_function h = exampleDecls.MODULE_FUNCTION_USER_PART
      ∧ r.validity_result &&& exampleDecls.MODULE_VALIDATION_RANGE ≠ 0
      ∧ r.validity_checked &&& exampleDecls.MODULE_VALIDATION_DEPENDENCIES ≠ 0
      ∧ r.validity_result &&& exampleDecls.MODULE_VALIDATION_DEPENDENCIES = 0 :=
  ⟨_, _, _, _, by rfl, rfl, by rfl, by rfl, by rfl, by decide, by decide, by decide⟩

/-- C9 (amended). When `HAL_System_Info` constructs the inventory, every partition is
fetched with the dependency waiver disabled, user-role modules included: the record
at index `i` is the one `fetch_module` produces for table entry `i` with
`userDepsOptional = false` and `check_flags = MODULE_VALIDATION_INTEGRITY`, and
DEPENDENCIES is marked passed in it only if `validate_module_dependencies(entry, false)`
returns `true`. The flag values enter as the assumption that DEPENDENCIES is a single
bit that none of RANGE, PLATFORM and INTEGRITY contains. -/
theorem HAL_System_Info_fetches_without_waiver (d : Decls) (tbl : List module_bounds_t)
    (fl : Flash) (heap : Heap) (info info2 : hal_system_info_t) (recs : List hal_module_t)
    (k : Nat)
    (hD : d.MODULE_VALIDATION_DEPENDENCIES = 2 ^ k)
    (hdisj : d.MODULE_VALIDATION_DEPENDENCIES &&& (d.MODULE_VALIDATION_RANGE
      ||| d.MODULE_VALIDATION_PLATFORM ||| d.MODULE_VALIDATION_INTEGRITY) = 0)
    (h : HAL_System_Info d tbl fl heap info true = .ok info2)
    (hm : info2.modules = some recs) :
    ∀ i r, recs[i]? = some r →
      ∃ block b ret, heap.malloc (module_bounds_length * d.sizeof_hal_module_t) = some block
        ∧ tbl[i]? = some b
        ∧ fetch_module d tbl fl (block i) b false d.MODULE_VALIDATION_INTEGRITY = .ok (r, ret)
        ∧ (r.validity_result &&& d.MODULE_VALIDATION_DEPENDENCIES ≠ 0 →
            validate_module_dependencies d tbl fl b false = .ok true) := by
  intro i r hr
  unfold HAL_System_Info at h
  simp only [if_true] at h
  cases hmal : heap.malloc (module_bounds_length * d.sizeof_hal_module_t) with
  | none =>
    simp only [hmal, Except.ok.injEq] at h
    subst h
    simp [HAL_OTA_Add_System_Info] at hm
  | some block =>
    simp only [hmal] at h
    cases hl : HAL_System_Info_loop d tbl fl block (module_bounds_length % 2 ^ 8) 0 [] with
    | error e => rw [hl] at h; cases h
    | ok records =>
      simp only [hl, Except.ok.injEq] at h
      subst h
      simp only [HAL_OTA_Add_System_Info, Option.some.injEq] at hm
      subst hm
      obtain ⟨rest, hrec, _, hall⟩ := HAL_System_Info_loop_ok d tbl fl block _ 0 [] records hl
      simp only [List.nil_append] at hrec
      subst hrec
      obtain ⟨b, ret, hb, hf⟩ := hall i r hr
      simp only [Nat.zero_add] at hb hf
      refine ⟨block, b, ret, rfl, hb, hf, ?_⟩
      intro hbit
      rcases fetch_module_ok_cases d tbl fl (block i) b false _ r ret hf with
        ⟨_, _, hr⟩ | ⟨info, eo, _, _, _, _, hr⟩ | ⟨info, eb, deps, _, _, _, hv, _, hr⟩
      · subst hr; simp [hal_module_t.zeroed] at hbit
      · subst hr; simp [hal_module_t.zeroed] at hbit
      · subst hr
        have := result_mask_deps_bit d _ _ _ k hD hdisj hbit
        rw [hv, this]

/-- Witness for C9 (amended): the inventory of the counterexample flash; the record at
index 2 is the user part fetched without the waiver. -/
theorem HAL_System_Info_fetches_without_waiver_witness :
    exampleDecls.MODULE_VALIDATION_DEPENDENCIES = 2 ^ 2
    ∧ ∃ info recs r,
      HAL_System_Info exampleDecls (Modular.module_bounds exampleDecls)
        (exampleFlash (some (systemHeader 3 ⟨0, 0, 0⟩))) exampleHeap emptyInfo true = .ok info
      ∧ info.modules = some recs ∧ recs[2]? = some r
      ∧ ∃ block b ret,
        exampleHeap.malloc (module_bounds_length * exampleDecls.sizeof_hal_module_t) = some block
        ∧ (Modular.module_bounds exampleDecls)[2]? = some b
        ∧ fetch_module exampleDecls (Modular.module_bounds exampleDecls)
            (exampleFlash (some (systemHeader 3 ⟨0, 0, 0⟩))) (block 2) b false
            exampleDecls.MODULE_VALIDATION_INTEGRITY = .ok (r, ret)
        ∧ (r.validity_result &&& exampleDecls.MODULE_VALIDATION_DEPENDENCIES ≠ 0 →
            validate_module_dependencies exampleDecls (Modular.module_bounds exampleDecls)
              (exampleFlash (some (systemHeader 3 ⟨0, 0, 0⟩))) b false = .ok true) :=
  ⟨by decide, _, _, _, by rfl, rfl, by rfl,
   HAL_System_Info_fetches_without_waiver exampleDecls (Modular.module_bounds exampleDecls)
     (exampleFlash (some (systemHeader 3 ⟨0, 0, 0⟩))) exampleHeap emptyInfo _ _ 2
     (by decide) (by decide) (by rfl) rfl 2 _ (by rfl)⟩

/-- C10 (the code at the failing input). In the build without `MODULAR_FIRMWARE` the
table has three entries while `module_bounds_length` is `4`: constructing the
inventory indexes `module_bounds[3]`, past the end of the array. On a flash with no
readable header the three existing entries are fetched and the fourth iteration
faults; and for every flash, block and prior `info` the construction ends in a fault,
so no inventory of three records is ever produced. -/
theorem HAL_System_Info_monolithic_out_of_bounds :
    (∀ d : Decls, (Monolithic.module_bounds d).length = 3)
    ∧ module_bounds_length = 4
    ∧ HAL_System_Info exampleDecls (Monolithic.module_bounds exampleDecls) blankFlash
        exampleHeap emptyInfo true = .error Fault.out_of_bounds
    ∧ ∀ (d : Decls) (fl : Flash) (info : hal_system_info_t) (block : Nat → hal_module_t),
        ∃ e, HAL_System_Info d (Monolithic.module_bounds d) fl { malloc := fun _ => some block }
          info true = .error e := by
  refine ⟨fun _ => rfl, rfl, by rfl, ?_⟩
  intro d fl info block
  obtain ⟨e, he⟩ := HAL_System_Info_loop_past_end d (Monolithic.module_bounds d) fl block
    (module_bounds_length % 2 ^ 8) 0 [] (by decide)
    (by simp [Monolithic.module_bounds, module_bounds_length])
  refine ⟨e, ?_⟩
  unfold HAL_System_Info
  simp only [if_true, he]

/-- The modular build, for comparison: when the construction completes, the inventory
holds `module_count = 4` records, record `i` has `bounds` equal to table entry `i`,
and the scratch partition `module_ota` is not an entry of the table. -/
theorem HAL_System_Info_modular_records (d : Decls) (fl : Flash) (heap : Heap)
    (info info2 : hal_system_info_t) (block : Nat → hal_module_t)
    (hmal : heap.malloc (module_bounds_length * d.sizeof_hal_module_t) = some block)
    (h : HAL_System_Info d (Modular.module_bounds d) fl heap info true = .ok info2) :
    ∃ recs, info2.modules = some recs ∧ recs.length = 4 ∧ info2.module_count = 4
      ∧ recs.map (fun r => r.bounds) = Modular.module_bounds d
      ∧ Modular.module_ota d ∉ Modular.module_bounds d := by
  unfold HAL_System_Info at h
  simp only [if_true, hmal] at h
  cases hl : HAL_System_Info_loop d (Modular.module_bounds d) fl block
      (module_bounds_length % 2 ^ 8) 0 [] with
  | error e => rw [hl] at h; cases h
  | ok records =>
    simp only [hl, Except.ok.injEq] at h
    subst h
    obtain ⟨rest, hrec, hlen, hall⟩ :=
      HAL_System_Info_loop_ok d (Modular.module_bounds d) fl block _ 0 [] records hl
    simp only [List.nil_append] at hrec
    subst hrec
    refine ⟨records, rfl, hlen, rfl, ?_, ?_⟩
    · apply List.ext_getElem?
      intro j
      rw [List.getElem?_map]
      cases hj : records[j]? with
      | none =>
        have : records.length ≤ j := by
          by_contra hlt
          rw [List.getElem?_eq_getElem (by omega)] at hj
          cases hj
        rw [hlen] at this
        have hlen2 : (Modular.module_bounds d).length ≤ j := by
          simp only [Modular.module_bounds, List.length_cons, List.length_nil]
          exact this
        rw [List.getElem?_eq_none hlen2]
        rfl
      | some r =>
        obtain ⟨b, ret, hb, hf⟩ := hall j r hj
        simp only [Nat.zero_add] at hb hf
        rw [hb]
        simp only [Option.map_some', Option.some.injEq]
        exact fetch_module_bounds _ _ _ _ _ _ _ _ _ hf
    · simp [Modular.module_bounds, Modular.module_ota, Modular.module_bootloader,
        Modular.module_system_part1, Modular.module_user, Modular.module_factory]

/-- C11 (as stated, refuted). In the build without `MODULAR_FIRMWARE`, `module_user`
(index 1 of the table) and `module_factory` (index 2) are distinct entries that both
carry `(MODULE_FUNCTION_MONO_FIRMWARE, 0)`: the keys of the table are not duplicate-free,
for the example enumerator values and for every other choice. -/
theorem module_bounds_monolithic_key_counterexample :
    (Monolithic.module_bounds exampleDecls)[1]? = some (Monolithic.module_user exampleDecls)
    ∧ (Monolithic.module_bounds exampleDecls)[2]? = some (Monolithic.module_factory exampleDecls)
    ∧ Monolithic.module_user exampleDecls ≠ Monolithic.module_factory exampleDecls
    ∧ bounds_key (Monolithic.module_user exampleDecls)
        = bounds_key (Monolithic.module_factory exampleDecls)
    ∧ ¬ ((Monolithic.module_bounds exampleDecls).map bounds_key).Nodup
    ∧ ∀ d : Decls, ¬ ((Monolithic.module_bounds d).map bounds_key).Nodup := by
  refine ⟨rfl, rfl, by decide, rfl, by decide, ?_⟩
  intro d
  simp [Monolithic.module_bounds, Monolithic.module_bootloader, Monolithic.module_user,
    Monolithic.module_factory, bounds_key]

/-- C11 (amended). In the modular build no two distinct entries of `module_bounds` share
`(function, index)`. In the build without `MODULAR_FIRMWARE`, `module_user` and
`module_factory` both carry `(MODULE_FUNCTION_MONO_FIRMWARE, 0)` and are told apart by
`store`; no two distinct entries share `(function, index, store)`. The enumerators come
from a header outside the sources; they enter as the assumptions that SYSTEM_PART differs
from USER_PART, BOOTLOADER from MONO_FIRMWARE and MAIN from FACTORY. -/
theorem module_bounds_keys (d : Decls)
    (hSU : d.MODULE_FUNCTION_SYSTEM_PART ≠ d.MODULE_FUNCTION_USER_PART)
    (hBM : d.MODULE_FUNCTION_BOOTLOADER ≠ d.MODULE_FUNCTION_MONO_FIRMWARE)
    (hMF : d.MODULE_STORE_MAIN ≠ d.MODULE_STORE_FACTORY) :
    ((Modular.module_bounds d).map bounds_key).Nodup
    ∧ bounds_key (Monolithic.module_user d) = bounds_key (Monolithic.module_factory d)
    ∧ (Monolithic.module_user d).store ≠ (Monolithic.module_factory d).store
    ∧ ((Monolithic.module_bounds d).map (fun b => (bounds_key b, b.store))).Nodup := by
  refine ⟨?_, rfl, hMF, ?_⟩
  · simp [Modular.module_bounds, Modular.module_bootloader, Modular.module_system_part1,
      Modular.module_user, Modular.module_factory, bounds_key, hSU]
  · simp [Monolithic.module_bounds, Monolithic.module_bootloader, Monolithic.module_user,
      Monolithic.module_factory, bounds_key, hBM, hMF]

/-- Witness for C11 (amended): the example enumerator values. -/
theorem module_bounds_keys_witness :
    exampleDecls.MODULE_FUNCTION_SYSTEM_PART ≠ exampleDecls.MODULE_FUNCTION_USER_PART
    ∧ exampleDecls.MODULE_FUNCTION_BOOTLOADER ≠ exampleDecls.MODULE_FUNCTION_MONO_FIRMWARE
    ∧ exampleDecls.MODULE_STORE_MAIN ≠ exampleDecls.MODULE_STORE_FACTORY
    ∧ (((Modular.module_bounds exampleDecls).map bounds_key).Nodup
      ∧ bounds_key (Monolithic.module_user exampleDecls)
          = bounds_key (Monolithic.module_factory exampleDecls)
      ∧ (Monolithic.module_user exampleDecls).store
          ≠ (Monolithic.module_factory exampleDecls).store
      ∧ ((Monolithic.module_bounds exampleDecls).map
          (fun b => (bounds_key b, b.store))).Nodup) :=
  ⟨by decide, by decide, by decide,
   module_bounds_keys exampleDecls (by decide) (by decide) (by decide)⟩

/-- The loop of `find_module_bounds`, started at index `k` with `n` iterations left:
a match among the entries it can reach is returned, first match first. -/
theorem find_module_bounds_loop_some (tbl : List module_bounds_t) (f i : Nat)
    (eb : module_bounds_t) :
    ∀ (n k : Nat), find_module_bounds_loop tbl f i n k = .ok (some eb) →
      eb ∈ tbl ∧ eb.module_function = f ∧ eb.module_index = i := by
  intro n
  induction n with
  | zero =>
    intro k h
    simp [find_module_bounds_loop] at h
  | succ n ih =>
    intro k h
    simp only [find_module_bounds_loop] at h
    cases hb : tbl[k]? with
    | none => rw [hb] at h; cases h
    | some b =>
      rw [hb] at h
      simp only at h
      split at h
      · rename_i hmatch
        simp only [Except.ok.injEq, Option.some.injEq] at h
        subst h
        exact ⟨List.getElem?_mem hb, hmatch.1, hmatch.2⟩
      · exact ih (k + 1) h

theorem find_module_bounds_some (tbl : List module_bounds_t) (f i : Nat)
    (eb : module_bounds_t) (h : find_module_bounds tbl f i = .ok (some eb)) :
    eb ∈ tbl ∧ eb.module_function = f % 256 ∧ eb.module_index = i % 256 :=
  find_module_bounds_loop_some tbl (f % 256) (i % 256) eb module_bounds_length 0 h

/-- When the remaining iterations exactly cover the rest of the table, the loop of
`find_module_bounds` computes the spec's first match on that rest. -/
theorem find_module_bounds_loop_eq_spec (tbl : List module_bounds_t) (f i : Nat) :
    ∀ (n k : Nat), k + n = tbl.length →
      find_module_bounds_loop tbl f i n k = .ok (find_bounds_spec (tbl.drop k) f i) := by
  intro n
  induction n with
  | zero =>
    intro k hk
    have : tbl.drop k = [] := List.drop_eq_nil_of_le (by omega)
    simp [find_module_bounds_loop, find_bounds_spec, this]
  | succ n ih =>
    intro k hk
    have hlt : k < tbl.length := by omega
    simp only [find_module_bounds_loop]
    rw [List.getElem?_eq_getElem hlt]
    simp only
    have hdrop : tbl.drop k = tbl[k] :: tbl.drop (k + 1) := List.drop_eq_getElem_cons hlt
    rw [hdrop]
    unfold find_bounds_spec
    split
    · rename_i hm
      rw [List.find?_cons_of_pos _ (by simpa using hm)]
    · rename_i hm
      rw [List.find?_cons_of_neg _ (by simpa using hm)]
      exact ih (k + 1) (by omega)

/-- On a table with exactly `module_bounds_length` entries (the modular build),
`find_module_bounds` returns, and returns the spec's first match for the query taken
as `uint8_t` values. -/
theorem find_module_bounds_eq_spec (tbl : List module_bounds_t) (f i : Nat)
    (hlen : tbl.length = module_bounds_length) :
    find_module_bounds tbl f i = .ok (find_bounds_spec tbl (f % 256) (i % 256)) := by
  unfold find_module_bounds
  rw [find_module_bounds_loop_eq_spec tbl _ _ module_bounds_length 0 (by omega)]
  simp

/-- On a table with fewer entries than the loop has iterations, a query without a
match walks off the end of the array. -/
theorem find_module_bounds_loop_short (tbl : List module_bounds_t) (f i : Nat) :
    ∀ (n k : Nat), 0 < n → tbl.length < k + n →
      find_bounds_spec (tbl.drop k) f i = none →
      find_module_bounds_loop tbl f i n k = .error Fault.out_of_bounds := by
  intro n
  induction n with
  | zero => intro k hpos; exact absurd hpos (by omega)
  | succ n ih =>
    intro k _ hlen hnone
    simp only [find_module_bounds_loop]
    cases hb : tbl[k]? with
    | none => rfl
    | some b =>
      have hlt : k < tbl.length := by
        by_contra hge
        rw [List.getElem?_eq_none (by omega)] at hb
        cases hb
      have hdrop : tbl.drop k = tbl[k] :: tbl.drop (k + 1) :=
        List.drop_eq_getElem_cons hlt
      rw [List.getElem?_eq_getElem hlt] at hb
      simp only [Option.some.injEq] at hb
      rw [hdrop, hb] at hnone
      unfold find_bounds_spec at hnone
      simp only
      split
      · rename_i hm
        rw [List.find?_cons_of_pos _ (by simpa using hm)] at hnone
        cases hnone
      · rename_i hm
        rw [List.find?_cons_of_neg _ (by simpa using hm)] at hnone
        exact ih (k + 1) (by omega) (by omega) hnone

/-- C12 (the code at the failing input). In the build without `MODULAR_FIRMWARE` no
entry of the three-entry table matches `(MODULE_FUNCTION_USER_PART, 0)`, so the spec's
lookup is not-found; `find_module_bounds` runs its fourth iteration and reads
`module_bounds[3]`, past the end of the array, instead of returning `NULL`. A query
that has a match is still answered with the first matching entry. -/
theorem find_module_bounds_monolithic_not_found_faults :
    find_bounds_spec (Monolithic.module_bounds exampleDecls)
        exampleDecls.MODULE_FUNCTION_USER_PART 0 = none
    ∧ find_module_bounds (Monolithic.module_bounds exampleDecls)
        exampleDecls.MODULE_FUNCTION_USER_PART 0 = .error Fault.out_of_bounds
    ∧ find_module_bounds (Monolithic.module_bounds exampleDecls)
        exampleDecls.MODULE_FUNCTION_MONO_FIRMWARE 0
        = .ok (some (Monolithic.module_user exampleDecls))
    ∧ find_module_bounds (Modular.module_bounds exampleDecls)
        exampleDecls.MODULE_FUNCTION_MONO_FIRMWARE 0 = .ok none :=
  ⟨by rfl, by rfl, by rfl, by rfl⟩

/-- The loop of `find_module_bounds` can only report not-found after reading every
index it was asked to visit, so all of them are inside the table. -/
theorem find_module_bounds_loop_none_length (tbl : List module_bounds_t) (f i : Nat) :
    ∀ (n k : Nat), find_module_bounds_loop tbl f i n k = .ok none →
      n = 0 ∨ k + n ≤ tbl.length := by
  intro n
  induction n with
  | zero => intro k _; exact Or.inl rfl
  | succ n ih =>
    intro k h
    right
    simp only [find_module_bounds_loop] at h
    cases hb : tbl[k]? with
    | none => rw [hb] at h; cases h
    | some b =>
      have hlt : k < tbl.length := by
        by_contra hge
        rw [List.getElem?_eq_none (by omega)] at hb
        cases hb
      rw [hb] at h
      simp only at h
      split at h
      · cases h
      · rcases ih (k + 1) h with h0 | hle
        · omega
        · omega

/-- In the build without `MODULAR_FIRMWARE` `find_module_bounds` never returns
not-found, for every choice of the enumerators: a query without a match faults. -/
theorem find_module_bounds_monolithic_never_not_found (d : Decls) (f i : Nat) :
    find_module_bounds (Monolithic.module_bounds d) f i ≠ .ok none := by
  intro h
  rcases find_module_bounds_loop_none_length _ _ _ _ _ h with h0 | hle
  · exact absurd h0 (by decide)
  · simp [Monolithic.module_bounds, module_bounds_length] at hle

/-- C13. For all `test`, `start` and `end` (in particular all 32-bit unsigned ones),
`in_range(test, start, end)` is true if and only if `start ≤ test` and `test ≤ end`,
inclusive at both ends; it is false for every `test` when `start > end`. -/
theorem in_range_iff (test start end_ : Nat) :
    (in_range test start end_ = true ↔ start ≤ test ∧ test ≤ end_)
    ∧ (end_ < start → in_range test start end_ = false) := by
  constructor
  · simp [in_range]
  · intro h
    simp only [in_range, ge_iff_le, Bool.and_eq_false_iff, decide_eq_false_iff_not]
    omega

/-- The two ends of a non-empty range that starts above address `0`: the end address
is in range, the address just below the start (computed modulo `2 ^ 32`) is not. -/
theorem in_range_ends (s e : Nat) (h0 : 0 < s) (hle : s ≤ e) (hlt : s < 2 ^ 32) :
    in_range e s e = true ∧ in_range ((s + 2 ^ 32 - 1) % 2 ^ 32) s e = false := by
  constructor
  · simp only [in_range, ge_iff_le, le_refl, decide_True, Bool.and_true, decide_eq_true_eq]
    exact hle
  · simp only [in_range, ge_iff_le, Bool.and_eq_false_iff, decide_eq_false_iff_not]
    left
    omega

/-- C14. For every partition `P` compiled into either build, the scratch partition
included, `in_range(P.end_address, P.start_address, P.end_address)` is true and
`in_range(P.start_address - 1, P.start_address, P.end_address)` is false, the
subtraction taken modulo `2 ^ 32`. -/
theorem in_range_partition_ends (d : Decls) (P : module_bounds_t)
    (hP : P ∈ all_partitions d) :
    in_range P.end_address P.start_address P.end_address = true
    ∧ in_range ((P.start_address + 2 ^ 32 - 1) % 2 ^ 32) P.start_address P.end_address
        = false := by
  simp only [all_partitions, Modular.module_bounds, Monolithic.module_bounds,
    List.mem_append, List.mem_cons, List.mem_singleton, List.not_mem_nil, or_false] at hP
  rcases hP with (((h | h | h | h) | h) | (h | h | h)) | h <;>
    subst h <;> apply in_range_ends <;>
    simp only [Modular.module_bootloader, Modular.module_system_part1,
      Modular.module_user, Modular.module_factory, Modular.module_ota,
      Monolithic.module_bootloader, Monolithic.module_user, Monolithic.module_factory,
      Monolithic.module_ota] <;>
    norm_num

/-- Witness for C14: the scratch partition of the modular build. -/
theorem in_range_partition_ends_witness :
    Modular.module_ota exampleDecls ∈ all_partitions exampleDecls
    ∧ (in_range 0x1021000 0x1004000 0x1021000 = true
      ∧ in_range ((0x1004000 + 2 ^ 32 - 1) % 2 ^ 32) 0x1004000 0x1021000 = false) :=
  ⟨by decide,
   in_range_partition_ends exampleDecls (Modular.module_ota exampleDecls) (by decide)⟩

/-- Witness for C13: an address inside a range, and a range with `start > end`. -/
theorem in_range_iff_witness :
    (in_range 5 3 7 = true ↔ 3 ≤ 5 ∧ 5 ≤ 7) ∧ in_range 5 7 3 = false :=
  ⟨(in_range_iff 5 3 7).1, (in_range_iff 5 7 3).2 (by decide)⟩

theorem exampleDecls_flags_independent : ValidationFlagsIndependent exampleDecls :=
  ⟨1, 2, 3, 4, by decide, by decide, by decide, by decide, by decide, by decide, by decide,
    by decide, by decide, by decide, rfl, rfl, rfl, rfl⟩

/-- Under independent flags each bit of `result_mask` reports exactly one test. -/
theorem result_mask_bits (d : Decls) (hind : ValidationFlagsIndependent d)
    (p dp ig : Bool) :
    result_mask d p dp ig &&& d.MODULE_VALIDATION_RANGE ≠ 0
    ∧ (result_mask d p dp ig &&& d.MODULE_VALIDATION_PLATFORM ≠ 0 ↔ p = true)
    ∧ (result_mask d p dp ig &&& d.MODULE_VALIDATION_DEPENDENCIES ≠ 0 ↔ dp = true)
    ∧ (result_mask d p dp ig &&& d.MODULE_VALIDATION_INTEGRITY ≠ 0 ↔ ig = true) := by
  obtain ⟨kI, kD, kR, kP, hI16, hD16, hR16, hP16, hID, hIR, hIP, hDR, hDP, hRP,
    hI, hD, hR, hP⟩ := hind
  refine ⟨?_, ?_, ?_, ?_⟩
  · rw [hR, and_two_pow_ne_zero_iff, result_mask_testBit, hR]
    simp [hR16, Nat.testBit_two_pow_self]
  · rw [hP, and_two_pow_ne_zero_iff, result_mask_testBit, hI, hD, hR, hP]
    simp [hP16, Nat.testBit_two_pow, hID, hIR, hIP, hDR, hDP, hRP, Ne.symm hID, Ne.symm hIR, Ne.symm hIP, Ne.symm hDR, Ne.symm hDP, Ne.symm hRP]
  · rw [hD, and_two_pow_ne_zero_iff, result_mask_testBit, hI, hD, hR, hP]
    simp [hD16, Nat.testBit_two_pow, hID, hIR, hIP, hDR, hDP, hRP, Ne.symm hID, Ne.symm hIR, Ne.symm hIP, Ne.symm hDR, Ne.symm hDP, Ne.symm hRP]
  · rw [hI, and_two_pow_ne_zero_iff, result_mask_testBit, hI, hD, hR, hP]
    simp [hI16, Nat.testBit_two_pow, hID, hIR, hIP, hDR, hDP, hRP, Ne.symm hID, Ne.symm hIR, Ne.symm hIP, Ne.symm hDR, Ne.symm hDP, Ne.symm hRP]

/-- Under independent flags INTEGRITY is in the checked mask exactly when it is in
`check_flags`. -/
theorem checked_mask_integrity (d : Decls) (hind : ValidationFlagsIndependent d) (cf : Nat) :
    checked_mask d cf &&& d.MODULE_VALIDATION_INTEGRITY ≠ 0
      ↔ (cf % 2 ^ 16) &&& d.MODULE_VALIDATION_INTEGRITY ≠ 0 := by
  obtain ⟨kI, kD, kR, kP, hI16, hD16, hR16, hP16, hID, hIR, hIP, hDR, hDP, hRP,
    hI, hD, hR, hP⟩ := hind
  rw [hI, and_two_pow_ne_zero_iff, and_two_pow_ne_zero_iff, checked_mask_testBit,
    Nat.testBit_mod_two_pow, hD, hR, hP]
  simp [hI16, Nat.testBit_two_pow, hID, hIR, hIP, hDR, hDP, hRP, Ne.symm hID, Ne.symm hIR, Ne.symm hIP, Ne.symm hDR, Ne.symm hDP, Ne.symm hRP]

/-- C15. In every record produced by `fetch_module`, the PLATFORM bit is set in
`validity_result` if and only if RANGE passed and the header's `platform_id` equals
`PLATFORM_ID`; the DEPENDENCIES bit is set if and only if RANGE passed and
`validate_module_dependencies(bounds, userDepsOptional)` returns `true`. The flag
values enter as the assumption that the four flags are distinct single bits. -/
theorem fetch_module_platform_dependencies_bits (d : Decls) (tbl : List module_bounds_t)
    (fl : Flash) (target : hal_module_t) (bounds : module_bounds_t) (uo : Bool) (cf : Nat)
    (r : hal_module_t) (b : Bool)
    (hind : ValidationFlagsIndependent d)
    (h : fetch_module d tbl fl target bounds uo cf = .ok (r, b)) :
    (r.validity_result &&& d.MODULE_VALIDATION_PLATFORM ≠ 0 ↔
      (r.validity_result &&& d.MODULE_VALIDATION_RANGE ≠ 0
        ∧ ∃ info, fl.FLASH_ModuleInfo bounds.start_address = some info
            ∧ module_platform_id info = d.PLATFORM_ID))
    ∧ (r.validity_result &&& d.MODULE_VALIDATION_DEPENDENCIES ≠ 0 ↔
      (r.validity_result &&& d.MODULE_VALIDATION_RANGE ≠ 0
        ∧ validate_module_dependencies d tbl fl bounds uo = .ok true)) := by
  rcases fetch_module_ok_cases d tbl fl target bounds uo cf r b h with
    ⟨_, _, hr⟩ | ⟨info, eo, _, _, _, _, hr⟩ | ⟨info, eb, deps, hinfo, _, _, hv, _, hr⟩
  · subst hr; simp [hal_module_t.zeroed]
  · subst hr; simp [hal_module_t.zeroed]
  · subst hr
    obtain ⟨hR, hP, hD, _⟩ := result_mask_bits d hind
      (decide (d.PLATFORM_ID = module_platform_id info)) deps
      (decide (checked_mask d cf &&& d.MODULE_VALIDATION_INTEGRITY ≠ 0) &&
        fl.FLASH_VerifyCRC32 bounds.start_address (d.module_length info))
    simp only
    constructor
    · rw [hP]
      constructor
      · intro hp
        exact ⟨hR, info, hinfo, (of_decide_eq_true hp).symm⟩
      · rintro ⟨_, info2, hinfo2, hp⟩
        rw [hinfo] at hinfo2
        cases hinfo2
        exact decide_eq_true hp.symm
    · rw [hD]
      constructor
      · intro hd
        exact ⟨hR, by rw [hv, hd]⟩
      · rintro ⟨_, hd⟩
        rw [hv] at hd
        injection hd

/-- Witness for C15: the user part of a modular flash with too old a dependency:
RANGE and PLATFORM pass, DEPENDENCIES does not. -/
theorem fetch_module_platform_dependencies_bits_witness :
    fetch_module exampleDecls (Modular.module_bounds exampleDecls)
        (exampleFlash (some (systemHeader 3 ⟨0, 0, 0⟩))) hal_module_t.zeroed
        (Modular.module_user exampleDecls) false 0
      = .ok ({ bounds := Modular.module_user exampleDecls, info := some userHeader,
               crc := 0x3A000, suffix := 0x3A000 - 36,
               validity_checked := 28, validity_result := 24 }, true)
    ∧ ((24 &&& exampleDecls.MODULE_VALIDATION_PLATFORM ≠ 0 ↔
        (24 &&& exampleDecls.MODULE_VALIDATION_RANGE ≠ 0
          ∧ ∃ info, (exampleFlash (some (systemHeader 3 ⟨0, 0, 0⟩))).FLASH_ModuleInfo
                (Modular.module_user exampleDecls).start_address = some info
              ∧ module_platform_id info = exampleDecls.PLATFORM_ID))
      ∧ (24 &&& exampleDecls.MODULE_VALIDATION_DEPENDENCIES ≠ 0 ↔
        (24 &&& exampleDecls.MODULE_VALIDATION_RANGE ≠ 0
          ∧ validate_module_dependencies exampleDecls (Modular.module_bounds exampleDecls)
              (exampleFlash (some (systemHeader 3 ⟨0, 0, 0⟩)))
              (Modular.module_user exampleDecls) false = .ok true))) :=
  ⟨by rfl,
   fetch_module_platform_dependencies_bits exampleDecls (Modular.module_bounds exampleDecls)
     (exampleFlash (some (systemHeader 3 ⟨0, 0, 0⟩))) hal_module_t.zeroed
     (Modular.module_user exampleDecls) false 0 _ true exampleDecls_flags_independent
     (by rfl)⟩

/-- Evaluation of `fetch_module` on the branch where the range test succeeds. -/
theorem fetch_module_in_range (d : Decls) (tbl : List module_bounds_t) (fl : Flash)
    (target : hal_module_t) (bounds : module_bounds_t) (uo : Bool) (cf : Nat)
    (info : module_info_t) (eb : module_bounds_t) (deps : Bool)
    (hinfo : fl.FLASH_ModuleInfo bounds.start_address = some info)
    (hfind : find_module_bounds tbl (module_function info) (module_index info)
      = .ok (some eb))
    (hr : in_range (info.module_end_address % 2 ^ 32) eb.start_address eb.end_address = true)
    (hv : validate_module_dependencies d tbl fl bounds uo = .ok deps) :
    fetch_module d tbl fl target bounds uo cf =
      .ok ({ bounds := bounds, info := some info, crc := info.module_end_address,
             suffix := (info.module_end_address + 2 ^ 32
               - d.sizeof_module_info_suffix_t % 2 ^ 32) % 2 ^ 32,
             validity_checked := checked_mask d cf,
             validity_result := result_mask d
               (decide (d.PLATFORM_ID = module_platform_id info)) deps
               (decide (checked_mask d cf &&& d.MODULE_VALIDATION_INTEGRITY ≠ 0) &&
                 fl.FLASH_VerifyCRC32 bounds.start_address (d.module_length info)) },
           true) := by
  cases hf : fetch_module d tbl fl target bounds uo cf with
  | error e =>
    unfold fetch_module at hf
    simp only [locate_module, memset_zero, hinfo, hfind, hr, if_true, hv] at hf
    cases hf
  | ok p =>
    obtain ⟨r, b⟩ := p
    rcases fetch_module_ok_cases d tbl fl target bounds uo cf r b hf with
      ⟨hnone, _, _⟩ | ⟨info2, eo, hinfo2, hfind2, hout, _, _⟩
        | ⟨info2, eb2, deps2, hinfo2, hfind2, _, hv2, hb, hrec⟩
    · rw [hinfo] at hnone; cases hnone
    · rw [hinfo] at hinfo2
      cases hinfo2
      rw [hfind] at hfind2
      cases hfind2
      rw [hout eb rfl] at hr
      cases hr
    · rw [hinfo] at hinfo2
      cases hinfo2
      rw [hv] at hv2
      cases hv2
      rw [hb, hrec]

/-- C16 (as stated, refuted). Modular build, INTEGRITY requested. The user partition
holds a header that ends at `0x3A000` and declares `module_start_address = 0x38000`;
the checksum over `[partition.start_address, module_end_address) = [0x37000, 0x3A000)`
verifies. The record has RANGE passed and the header surfaced, yet INTEGRITY is not set:
the code verifies `module_length(header)` bytes from the partition start, and the
length (here `module_end_address - module_start_address`) comes from the header alone.
The second part does not depend on that reading of `module_length`: for every function
`ml` of the header there is a partition of the table and a flash on which the claim
fails (the table does not depend on `ml`). -/
theorem fetch_module_integrity_range_counterexample :
    (∃ r info,
      fetch_module exampleDecls (Modular.module_bounds exampleDecls)
        (singleModuleFlash 0x37000 (plainUserHeader 0x38000) 0x3000) hal_module_t.zeroed
        (Modular.module_user exampleDecls) false exampleDecls.MODULE_VALIDATION_INTEGRITY
        = .ok (r, true)
      ∧ r.info = some info
      ∧ (exampleDecls.MODULE_VALIDATION_INTEGRITY % 2 ^ 16)
          &&& exampleDecls.MODULE_VALIDATION_INTEGRITY ≠ 0
      ∧ r.validity_result &&& exampleDecls.MODULE_VALIDATION_RANGE ≠ 0
      ∧ checksum_matches (singleModuleFlash 0x37000 (plainUserHeader 0x38000) 0x3000)
          (Modular.module_user exampleDecls).start_address info.module_end_address = true
      ∧ r.validity_result &&& exampleDecls.MODULE_VALIDATION_INTEGRITY = 0)
    ∧ ∀ ml : module_info_t → Nat,
      Modular.module_bounds (exampleDeclsWith ml) = Modular.module_bounds exampleDecls
      ∧ ∃ fl X r info,
        X ∈ Modular.module_bounds exampleDecls
        ∧ fetch_module (exampleDeclsWith ml) (Modular.module_bounds exampleDecls) fl
            hal_module_t.zeroed X false exampleDecls.MODULE_VALIDATION_INTEGRITY
            = .ok (r, true)
        ∧ r.info = some info
        ∧ (exampleDecls.MODULE_VALIDATION_INTEGRITY % 2 ^ 16)
            &&& exampleDecls.MODULE_VALIDATION_INTEGRITY ≠ 0
        ∧ r.validity_result &&& exampleDecls.MODULE_VALIDATION_RANGE ≠ 0
        ∧ checksum_matches fl X.start_address info.module_end_address = true
        ∧ r.validity_result &&& exampleDecls.MODULE_VALIDATION_INTEGRITY = 0 := by
  refine ⟨⟨_, _, by rfl, rfl, by decide, by decide, by rfl, by decide⟩, ?_⟩
  intro ml
  refine ⟨rfl, ?_⟩
  have hmask : ∀ ig : Bool,
      result_mask (exampleDeclsWith ml)
        (decide ((exampleDeclsWith ml).PLATFORM_ID = module_platform_id (plainUserHeader 0x37000)))
        true (ig && false) = 28 := by
    intro ig
    rw [Bool.and_false]
    show result_mask exampleDecls (decide ((103 : Nat) = 103)) true false = 28
    decide
  have hfind : find_module_bounds (Modular.module_bounds exampleDecls)
      (module_function (plainUserHeader 0x37000)) (module_index (plainUserHeader 0x37000))
      = .ok (some (Modular.module_user exampleDecls)) := by rfl
  have hr : in_range ((plainUserHeader 0x37000).module_end_address % 2 ^ 32)
      (Modular.module_user exampleDecls).start_address
      (Modular.module_user exampleDecls).end_address = true := by decide
  have hR : (28 : Nat) &&& exampleDecls.MODULE_VALIDATION_RANGE ≠ 0 := by decide
  have hI : (28 : Nat) &&& exampleDecls.MODULE_VALIDATION_INTEGRITY = 0 := by decide
  by_cases hL : ml (plainUserHeader 0x37000) = 0x3000
  · have hc : (singleModuleFlash 0x18000 (plainUserHeader 0x37000) 0x22000).FLASH_VerifyCRC32
        (Modular.module_system_part1 exampleDecls).start_address
        ((exampleDeclsWith ml).module_length (plainUserHeader 0x37000)) = false := by
      show (decide ((0x18000 : Nat) = 0x18000) && decide (ml (plainUserHeader 0x37000) = 0x22000))
        = false
      rw [hL]
      decide
    have hf := fetch_module_in_range (exampleDeclsWith ml)
      (Modular.module_bounds exampleDecls)
      (singleModuleFlash 0x18000 (plainUserHeader 0x37000) 0x22000) hal_module_t.zeroed
      (Modular.module_system_part1 exampleDecls) false
      exampleDecls.MODULE_VALIDATION_INTEGRITY (plainUserHeader 0x37000)
      (Modular.module_user exampleDecls) true (by rfl) hfind hr (by rfl)
    rw [hc, hmask] at hf
    exact ⟨_, _, _, plainUserHeader 0x37000, by decide, hf, rfl, by decide, hR,
      by rfl, hI⟩
  · have hc : (singleModuleFlash 0x37000 (plainUserHeader 0x37000) 0x3000).FLASH_VerifyCRC32
        (Modular.module_user exampleDecls).start_address
        ((exampleDeclsWith ml).module_length (plainUserHeader 0x37000)) = false := by
      show (decide ((0x37000 : Nat) = 0x37000) && decide (ml (plainUserHeader 0x37000) = 0x3000))
        = false
      simp [hL]
    have hf := fetch_module_in_range (exampleDeclsWith ml)
      (Modular.module_bounds exampleDecls)
      (singleModuleFlash 0x37000 (plainUserHeader 0x37000) 0x3000) hal_module_t.zeroed
      (Modular.module_user exampleDecls) false
      exampleDecls.MODULE_VALIDATION_INTEGRITY (plainUserHeader 0x37000)
      (Modular.module_user exampleDecls) true (by rfl) hfind hr (by rfl)
    rw [hc, hmask] at hf
    exact ⟨_, _, _, plainUserHeader 0x37000, by decide, hf, rfl, by decide, hR,
      by rfl, hI⟩

/-- C16 (amended). In every record produced by `fetch_module`, the INTEGRITY bit is set
in `validity_result` if and only if INTEGRITY was requested in `check_flags`, RANGE
passed, and `FLASH_VerifyCRC32(bounds->start_address, module_length(header))` succeeds:
the checksum over the `module_length(header)` bytes that start at the partition's start
address. When `module_length(header)` equals `module_end_address - start_address` of
the partition (32-bit), that is the checksum over `[start_address, module_end_address)`.
The flag values enter as the assumption that the four flags are distinct single bits. -/
theorem fetch_module_integrity_bit (d : Decls) (tbl : List module_bounds_t)
    (fl : Flash) (target : hal_module_t) (bounds : module_bounds_t) (uo : Bool) (cf : Nat)
    (r : hal_module_t) (b : Bool)
    (hind : ValidationFlagsIndependent d)
    (h : fetch_module d tbl fl target bounds uo cf = .ok (r, b)) :
    (r.validity_result &&& d.MODULE_VALIDATION_INTEGRITY ≠ 0 ↔
      ((cf % 2 ^ 16) &&& d.MODULE_VALIDATION_INTEGRITY ≠ 0
        ∧ r.validity_result &&& d.MODULE_VALIDATION_RANGE ≠ 0
        ∧ ∃ info, fl.FLASH_ModuleInfo bounds.start_address = some info
            ∧ fl.FLASH_VerifyCRC32 bounds.start_address (d.module_length info) = true))
    ∧ (∀ info, fl.FLASH_ModuleInfo bounds.start_address = some info →
        d.module_length info
          = (info.module_end_address + 2 ^ 32 - bounds.start_address) % 2 ^ 32 →
        (r.validity_result &&& d.MODULE_VALIDATION_INTEGRITY ≠ 0 ↔
          ((cf % 2 ^ 16) &&& d.MODULE_VALIDATION_INTEGRITY ≠ 0
            ∧ r.validity_result &&& d.MODULE_VALIDATION_RANGE ≠ 0
            ∧ checksum_matches fl bounds.start_address info.module_end_address = true))) := by
  have key : r.validity_result &&& d.MODULE_VALIDATION_INTEGRITY ≠ 0 ↔
      ((cf % 2 ^ 16) &&& d.MODULE_VALIDATION_INTEGRITY ≠ 0
        ∧ r.validity_result &&& d.MODULE_VALIDATION_RANGE ≠ 0
        ∧ ∃ info, fl.FLASH_ModuleInfo bounds.start_address = some info
            ∧ fl.FLASH_VerifyCRC32 bounds.start_address (d.module_length info) = true) := by
    rcases fetch_module_ok_cases d tbl fl target bounds uo cf r b h with
      ⟨_, _, hr⟩ | ⟨info, eo, _, _, _, _, hr⟩ | ⟨info, eb, deps, hinfo, _, _, _, _, hr⟩
    · subst hr; simp [hal_module_t.zeroed]
    · subst hr; simp [hal_module_t.zeroed]
    · subst hr
      obtain ⟨hR, _, _, hI⟩ := result_mask_bits d hind
        (decide (d.PLATFORM_ID = module_platform_id info)) deps
        (decide (checked_mask d cf &&& d.MODULE_VALIDATION_INTEGRITY ≠ 0) &&
          fl.FLASH_VerifyCRC32 bounds.start_address (d.module_length info))
      simp only
      have hci := checked_mask_integrity d hind cf
      rw [hI, Bool.and_eq_true, decide_eq_true_eq]
      constructor
      · rintro ⟨hreq, hcrc⟩
        exact ⟨hci.1 hreq, hR, info, hinfo, hcrc⟩
      · rintro ⟨hreq, _, info2, hinfo2, hcrc⟩
        rw [hinfo] at hinfo2
        cases hinfo2
        exact ⟨hci.2 hreq, hcrc⟩
  refine ⟨key, ?_⟩
  intro info hinfo hlen
  rw [key]
  unfold checksum_matches
  rw [← hlen]
  constructor
  · rintro ⟨hreq, hR, info2, hinfo2, hcrc⟩
    rw [hinfo] at hinfo2
    cases hinfo2
    exact ⟨hreq, hR, hcrc⟩
  · rintro ⟨hreq, hR, hcrc⟩
    exact ⟨hreq, hR, info, hinfo, hcrc⟩

/-- Witness for C16 (amended): the user part of a modular flash with INTEGRITY requested;
the header starts at the partition start, the checksum verifies, INTEGRITY is set. -/
theorem fetch_module_integrity_bit_witness :
    fetch_module exampleDecls (Modular.module_bounds exampleDecls)
        (singleModuleFlash 0x37000 (plainUserHeader 0x37000) 0x3000) hal_module_t.zeroed
        (Modular.module_user exampleDecls) false 2
      = .ok ({ bounds := Modular.module_user exampleDecls,
               info := some (plainUserHeader 0x37000),
               crc := 0x3A000, suffix := 0x3A000 - 36,
               validity_checked := 30, validity_result := 30 }, true)
    ∧ (30 &&& exampleDecls.MODULE_VALIDATION_INTEGRITY ≠ 0 ↔
        ((2 % 2 ^ 16) &&& exampleDecls.MODULE_VALIDATION_INTEGRITY ≠ 0
          ∧ 30 &&& exampleDecls.MODULE_VALIDATION_RANGE ≠ 0
          ∧ checksum_matches (singleModuleFlash 0x37000 (plainUserHeader 0x37000) 0x3000)
              (Modular.module_user exampleDecls).start_address
              (plainUserHeader 0x37000).module_end_address = true)) :=
  ⟨by rfl,
   (fetch_module_integrity_bit exampleDecls (Modular.module_bounds exampleDecls)
     (singleModuleFlash 0x37000 (plainUserHeader 0x37000) 0x3000) hal_module_t.zeroed
     (Modular.module_user exampleDecls) false 2 _ true exampleDecls_flags_independent
     (by rfl)).2 (plainUserHeader 0x37000) (by rfl) (by rfl)⟩

/-- C17. For every record whose header `info` is surfaced by `fetch_module`, the table
has an entry whose function and index are the header's own (as the `uint8_t` values
passed to `find_module_bounds`) and whose inclusive `[start_address, end_address]`
contains `info.module_end_address` (as a 32-bit address). -/
theorem fetch_module_surfaced_header_in_table (d : Decls) (tbl : List module_bounds_t)
    (fl : Flash) (target : hal_module_t) (bounds : module_bounds_t) (uo : Bool) (cf : Nat)
    (r : hal_module_t) (b : Bool) (info : module_info_t)
    (h : fetch_module d tbl fl target bounds uo cf = .ok (r, b))
    (hs : r.info = some info) :
    ∃ eb, eb ∈ tbl
      ∧ eb.module_function = module_function info % 256
      ∧ eb.module_index = module_index info % 256
      ∧ eb.start_address ≤ info.module_end_address % 2 ^ 32
      ∧ info.module_end_address % 2 ^ 32 ≤ eb.end_address := by
  rcases fetch_module_ok_cases d tbl fl target bounds uo cf r b h with
    ⟨_, _, hr⟩ | ⟨info2, eo, _, _, _, _, hr⟩ | ⟨info2, eb, deps, _, hfind, hrange, _, _, hr⟩
  · subst hr; simp [hal_module_t.zeroed] at hs
  · subst hr; simp [hal_module_t.zeroed] at hs
  · subst hr
    simp only [Option.some.injEq] at hs
    subst hs
    obtain ⟨hmem, hf, hi⟩ := find_module_bounds_some tbl _ _ eb hfind
    simp only [in_range, ge_iff_le, Bool.and_eq_true, decide_eq_true_eq] at hrange
    exact ⟨eb, hmem, hf, hi, hrange.1, hrange.2⟩

/-- Witness for C17: the user part of a modular flash resolves to `module_user`. -/
theorem fetch_module_surfaced_header_in_table_witness :
    ∃ eb, eb ∈ Modular.module_bounds exampleDecls
      ∧ eb.module_function = module_function userHeader % 256
      ∧ eb.module_index = module_index userHeader % 256
      ∧ eb.start_address ≤ userHeader.module_end_address % 2 ^ 32
      ∧ userHeader.module_end_address % 2 ^ 32 ≤ eb.end_address :=
  fetch_module_surfaced_header_in_table exampleDecls (Modular.module_bounds exampleDecls)
    (exampleFlash (some (systemHeader 7 ⟨0, 0, 0⟩))) hal_module_t.zeroed
    (Modular.module_user exampleDecls) false 2
    { bounds := Modular.module_user exampleDecls, info := some userHeader,
      crc := 0x3A000, suffix := 0x3A000 - 36, validity_checked := 30, validity_result := 30 }
    true userHeader (by rfl) rfl

/-- C18. The outcome of `fetch_module` does not depend on the prior contents of
`*target`: for any two prior contents, fetching the same partition over the same flash
with the same flags gives the same record and return value (the `memset` resets every
field before anything is filled in). -/
theorem fetch_module_ignores_prior_target (d : Decls) (tbl : List module_bounds_t)
    (fl : Flash) (t1 t2 : hal_module_t) (bounds : module_bounds_t) (uo : Bool) (cf : Nat) :
    fetch_module d tbl fl t1 bounds uo cf = fetch_module d tbl fl t2 bounds uo cf := by
  unfold fetch_module
  simp only [memset_zero]

/-- C19. `HAL_FLASH_Update` returns exactly what the collaborator `FLASH_Update`
returns for the same buffer, address and length (and leaves the device in the state
the collaborator leaves it in): the result is negative if and only if the
collaborator's is, and it is the byte count whenever the collaborator returns the
byte count. -/
theorem HAL_FLASH_Update_forwards {σ : Type} (drv : FlashDriver σ) (s : σ)
    (pBuffer : List Nat) (address length : Nat) :
    HAL_FLASH_Update drv s pBuffer address length = drv.FLASH_Update s pBuffer address length
    ∧ ((HAL_FLASH_Update drv s pBuffer address length).1 < 0
        ↔ (drv.FLASH_Update s pBuffer address length).1 < 0)
    ∧ ((drv.FLASH_Update s pBuffer address length).1 = (length : Int) →
        (HAL_FLASH_Update drv s pBuffer address length).1 = (length : Int)) :=
  ⟨rfl, Iff.rfl, fun h => h⟩

/-- Witness for C19: a 512-byte chunk at `0x1000` accepted by the example driver. -/
theorem HAL_FLASH_Update_forwards_witness :
    (HAL_FLASH_Update exampleDriver [] (List.replicate 512 0) 0x1000 512).1 = 512 :=
  (HAL_FLASH_Update_forwards exampleDriver [] (List.replicate 512 0) 0x1000 512).2.2 (by rfl)

/-- C20. `HAL_FLASH_Begin` returns `true` for every address and length and every
collaborator, whatever outcome `FLASH_Begin` reports; the device state is the one
`FLASH_Begin` leaves. -/
theorem HAL_FLASH_Begin_true {σ : Type} (drv : FlashDriver σ) (s : σ)
    (address length : Nat) :
    (HAL_FLASH_Begin drv s address length).1 = true
    ∧ (HAL_FLASH_Begin drv s address length).2 = (drv.FLASH_Begin s address length).2 :=
  ⟨rfl, rfl⟩

/-- C21. `HAL_FLASH_End` returns `HAL_UPDATE_APPLIED_PENDING_RESTART` from every device
state, its only effect being the collaborator's `FLASH_End` (no header is read, no
check is run); in particular after `begin(0x1000, 0x2000)` and a 512-byte write. -/
theorem HAL_FLASH_End_pending_restart {σ : Type} (d : Decls) (drv : FlashDriver σ) (s : σ)
    (pBuffer : List Nat) :
    (HAL_FLASH_End d drv s).1 = d.HAL_UPDATE_APPLIED_PENDING_RESTART
    ∧ (HAL_FLASH_End d drv s).2 = drv.FLASH_End s
    ∧ (HAL_FLASH_End d drv
        (HAL_FLASH_Update drv (HAL_FLASH_Begin drv s 0x1000 0x2000).2 pBuffer 0x1000 512).2).1
        = d.HAL_UPDATE_APPLIED_PENDING_RESTART :=
  ⟨rfl, rfl, rfl⟩

/-- C22. `HAL_OTA_FlashAddress` and `HAL_OTA_FlashLength` take no argument and read no
state: they are the constants `FLASH_FW_ADDRESS = 0x21000` and
`FLASH_LENGTH - FLASH_FW_ADDRESS = 0x1F000`. The difference is not changed by the
`int32_t` and `uint32_t` conversions, and address plus length is `FLASH_LENGTH`. -/
theorem HAL_OTA_Flash_window :
    HAL_OTA_FlashAddress = FLASH_FW_ADDRESS ∧ HAL_OTA_FlashAddress = 0x21000
    ∧ HAL_OTA_FlashLength = FLASH_LENGTH - FLASH_FW_ADDRESS ∧ HAL_OTA_FlashLength = 0x1F000
    ∧ to_int32 ((FLASH_LENGTH : Int) - (FLASH_FW_ADDRESS : Int))
        = (FLASH_LENGTH : Int) - (FLASH_FW_ADDRESS : Int)
    ∧ HAL_OTA_FlashAddress + HAL_OTA_FlashLength = FLASH_LENGTH := by
  refine ⟨?_, ?_, ?_, ?_, ?_, ?_⟩ <;> decide

/-- C23 (as stated, refuted). In both builds the reported window starts at `0x21000`
and is `0x1F000` long, while `module_ota` starts at `0x1004000` and has
`maximum_size = 0x1D000`: neither the address nor the length is the scratch
partition's. -/
theorem HAL_OTA_Flash_window_not_module_ota :
    HAL_OTA_FlashAddress ≠ (Modular.module_ota exampleDecls).start_address
    ∧ HAL_OTA_FlashLength ≠ (Modular.module_ota exampleDecls).maximum_size
    ∧ HAL_OTA_FlashAddress ≠ (Monolithic.module_ota exampleDecls).start_address
    ∧ HAL_OTA_FlashLength ≠ (Monolithic.module_ota exampleDecls).maximum_size := by
  refine ⟨?_, ?_, ?_, ?_⟩ <;> decide

/-- C23 (amended). The window reported by the transfer session is fixed by the layout
macros, not by the partition table: `HAL_OTA_FlashAddress() = FLASH_FW_ADDRESS = 0x21000`
and `HAL_OTA_FlashLength() = FLASH_LENGTH - FLASH_FW_ADDRESS = 0x1F000`, whereas in
both builds `module_ota.start_address = 0x1004000` and
`module_ota.maximum_size = module_ota.end_address - module_ota.start_address = 0x1D000`. -/
theorem HAL_OTA_Flash_window_layout (d : Decls) :
    HAL_OTA_FlashAddress = FLASH_FW_ADDRESS ∧ HAL_OTA_FlashAddress = 0x21000
    ∧ HAL_OTA_FlashLength = FLASH_LENGTH - FLASH_FW_ADDRESS ∧ HAL_OTA_FlashLength = 0x1F000
    ∧ (Modular.module_ota d).start_address = 0x1004000
    ∧ (Modular.module_ota d).maximum_size = 0x1D000
    ∧ (Modular.module_ota d).maximum_size
        = (Modular.module_ota d).end_address - (Modular.module_ota d).start_address
    ∧ Monolithic.module_ota d = Modular.module_ota d := by
  refine ⟨by decide, by decide, by decide, by decide, rfl, rfl, ?_, rfl⟩
  show (0x1D000 : Nat) = 0x1021000 - 0x1004000
  decide

/-- C24. In every record in which RANGE passed, the header `info` is surfaced, `crc`
is exactly `info.module_end_address` and `suffix` is that address minus
`sizeof(module_info_suffix_t)` in 32-bit pointer arithmetic; when the address is a
32-bit value not below the size, `suffix = module_end_address - sizeof` and the suffix
ends exactly where the checksum begins. -/
theorem fetch_module_crc_suffix (d : Decls) (tbl : List module_bounds_t)
    (fl : Flash) (target : hal_module_t) (bounds : module_bounds_t) (uo : Bool) (cf : Nat)
    (r : hal_module_t) (b : Bool)
    (h : fetch_module d tbl fl target bounds uo cf = .ok (r, b))
    (hrange : r.validity_result &&& d.MODULE_VALIDATION_RANGE ≠ 0) :
    ∃ info, r.info = some info
      ∧ r.crc = info.module_end_address
      ∧ r.suffix = (info.module_end_address + 2 ^ 32
          - d.sizeof_module_info_suffix_t % 2 ^ 32) % 2 ^ 32
      ∧ (d.sizeof_module_info_suffix_t ≤ info.module_end_address →
          info.module_end_address < 2 ^ 32 →
          r.suffix = info.module_end_address - d.sizeof_module_info_suffix_t
            ∧ r.suffix + d.sizeof_module_info_suffix_t = r.crc) := by
  rcases fetch_module_ok_cases d tbl fl target bounds uo cf r b h with
    ⟨_, _, hr⟩ | ⟨info, eo, _, _, _, _, hr⟩ | ⟨info, eb, deps, _, _, _, _, _, hr⟩
  · subst hr; simp [hal_module_t.zeroed] at hrange
  · subst hr; simp [hal_module_t.zeroed] at hrange
  · subst hr
    refine ⟨info, rfl, rfl, rfl, ?_⟩
    intro hle hlt
    simp only
    have h1 : d.sizeof_module_info_suffix_t % 2 ^ 32 = d.sizeof_module_info_suffix_t :=
      Nat.mod_eq_of_lt (lt_of_le_of_lt hle hlt)
    rw [h1]
    constructor
    · omega
    · omega

/-- Witness for C24: the user part of a modular flash, with a 36-byte suffix. -/
theorem fetch_module_crc_suffix_witness :
    ∃ info, (some userHeader) = some info
      ∧ 0x3A000 = info.module_end_address
      ∧ 0x3A000 - 36 = (info.module_end_address + 2 ^ 32
          - exampleDecls.sizeof_module_info_suffix_t % 2 ^ 32) % 2 ^ 32
      ∧ (exampleDecls.sizeof_module_info_suffix_t ≤ info.module_end_address →
          info.module_end_address < 2 ^ 32 →
          0x3A000 - 36 = info.module_end_address - exampleDecls.sizeof_module_info_suffix_t
            ∧ 0x3A000 - 36 + exampleDecls.sizeof_module_info_suffix_t = 0x3A000) :=
  fetch_module_crc_suffix exampleDecls (Modular.module_bounds exampleDecls)
    (exampleFlash (some (systemHeader 7 ⟨0, 0, 0⟩))) hal_module_t.zeroed
    (Modular.module_user exampleDecls) false 2
    { bounds := Modular.module_user exampleDecls, info := some userHeader,
      crc := 0x3A000, suffix := 0x3A000 - 36, validity_checked := 30, validity_result := 30 }
    true (by rfl) (by decide)

/-- C25 (as stated, refuted). Modular build, address `0x37000`: it is in range of
`module_system_part1`, whose region `[0x18000, 0x18000 + 0x1F000)` does not contain it,
and it is also in range of the distinct partition `module_user`. -/
theorem in_range_accepts_end_address_counterexample :
    Modular.module_system_part1 exampleDecls ∈ Modular.module_bounds exampleDecls
    ∧ Modular.module_user exampleDecls ∈ Modular.module_bounds exampleDecls
    ∧ Modular.module_system_part1 exampleDecls ≠ Modular.module_user exampleDecls
    ∧ in_range 0x37000 (Modular.module_system_part1 exampleDecls).start_address
        (Modular.module_system_part1 exampleDecls).end_address = true
    ∧ ¬ (0x37000 < (Modular.module_system_part1 exampleDecls).start_address
          + (Modular.module_system_part1 exampleDecls).maximum_size)
    ∧ in_range 0x37000 (Modular.module_user exampleDecls).start_address
        (Modular.module_user exampleDecls).end_address = true := by
  refine ⟨by decide, by decide, by decide, by decide, by decide, by decide⟩

/-- C25 (amended). For every partition `P` of the table of either build and every
address `a`, `in_range(a, P.start_address, P.end_address)` implies
`P.start_address ≤ a ≤ P.start_address + P.maximum_size`: the end address, one past
`P`'s region, is accepted. An address in range of two distinct partitions of the table
is the boundary they share, the end address of one and the start address of the other. -/
theorem in_range_partition_region (d : Decls) (tbl : List module_bounds_t)
    (htbl : tbl = Modular.module_bounds d ∨ tbl = Monolithic.module_bounds d)
    (P Q : module_bounds_t) (hP : P ∈ tbl) (hQ : Q ∈ tbl) (a : Nat)
    (haP : in_range a P.start_address P.end_address = true) :
    (P.start_address ≤ a ∧ a ≤ P.start_address + P.maximum_size)
    ∧ (P ≠ Q → in_range a Q.start_address Q.end_address = true →
        (a = P.end_address ∧ a = Q.start_address)
          ∨ (a = Q.end_address ∧ a = P.start_address)) := by
  rcases htbl with htbl | htbl <;> subst htbl
  · simp only [Modular.module_bounds, List.mem_cons, List.mem_singleton, List.not_mem_nil,
      or_false] at hP hQ
    constructor
    · rcases hP with h | h | h | h <;> subst h <;>
        simp only [in_range, ge_iff_le, Bool.and_eq_true, decide_eq_true_eq,
          Modular.module_bootloader, Modular.module_system_part1, Modular.module_user,
          Modular.module_factory] at haP ⊢ <;> omega
    · intro hne haQ
      rcases hP with h | h | h | h <;> rcases hQ with h2 | h2 | h2 | h2 <;>
        subst h <;> subst h2 <;>
        first
        | exact absurd rfl hne
        | (simp only [in_range, ge_iff_le, Bool.and_eq_true, decide_eq_true_eq,
            Modular.module_bootloader, Modular.module_system_part1, Modular.module_user,
            Modular.module_factory] at haP haQ ⊢
           omega)
  · simp only [Monolithic.module_bounds, List.mem_cons, List.mem_singleton, List.not_mem_nil,
      or_false] at hP hQ
    constructor
    · rcases hP with h | h | h <;> subst h <;>
        simp only [in_range, ge_iff_le, Bool.and_eq_true, decide_eq_true_eq,
          Monolithic.module_bootloader, Monolithic.module_user,
          Monolithic.module_factory] at haP ⊢ <;> omega
    · intro hne haQ
      rcases hP with h | h | h <;> rcases hQ with h2 | h2 | h2 <;>
        subst h <;> subst h2 <;>
        first
        | exact absurd rfl hne
        | (simp only [in_range, ge_iff_le, Bool.and_eq_true, decide_eq_true_eq,
            Monolithic.module_bootloader, Monolithic.module_user,
            Monolithic.module_factory] at haP haQ ⊢
           omega)

/-- Witness for C25 (amended): address `0x37000`, the boundary shared by
`module_system_part1` and `module_user` in the modular build. -/
theorem in_range_partition_region_witness :
    ((Modular.module_system_part1 exampleDecls).start_address ≤ 0x37000
      ∧ 0x37000 ≤ (Modular.module_system_part1 exampleDecls).start_address
          + (Modular.module_system_part1 exampleDecls).maximum_size)
    ∧ (Modular.module_system_part1 exampleDecls ≠ Modular.module_user exampleDecls →
        in_range 0x37000 (Modular.module_user exampleDecls).start_address
          (Modular.module_user exampleDecls).end_address = true →
        (0x37000 = (Modular.module_system_part1 exampleDecls).end_address
            ∧ 0x37000 = (Modular.module_user exampleDecls).start_address)
          ∨ (0x37000 = (Modular.module_user exampleDecls).end_address
            ∧ 0x37000 = (Modular.module_system_part1 exampleDecls).start_address)) :=
  in_range_partition_region exampleDecls (Modular.module_bounds exampleDecls) (Or.inl rfl)
    (Modular.module_system_part1 exampleDecls) (Modular.module_user exampleDecls)
    (by decide) (by decide) 0x37000 (by decide)

/-- C26. Modular build: the partition fetched is `module_system_part1`
(`[0x18000, 0x37000]`), and the header found at its start declares `(USER_PART, 2)` and
`module_end_address = 0x3A000`, inside `module_user`. Whatever the header's
`module_start_address` is, `fetch_module` surfaces the header and marks RANGE passed,
although the end address lies outside the bounds of the partition being fetched. -/
theorem fetch_module_range_not_against_fetched_partition :
    ∀ s : Nat, ∃ r,
      fetch_module exampleDecls (Modular.module_bounds exampleDecls)
        (singleModuleFlash 0x18000 (plainUserHeader s) 0) hal_module_t.zeroed
        (Modular.module_system_part1 exampleDecls) false 0 = .ok (r, true)
      ∧ r.info = some (plainUserHeader s)
      ∧ (plainUserHeader s).module_start_address = s
      ∧ r.validity_result &&& exampleDecls.MODULE_VALIDATION_RANGE ≠ 0
      ∧ find_module_bounds (Modular.module_bounds exampleDecls)
          (module_function (plainUserHeader s)) (module_index (plainUserHeader s))
          = .ok (some (Modular.module_user exampleDecls))
      ∧ ¬ ((Modular.module_system_part1 exampleDecls).start_address
            ≤ (plainUserHeader s).module_end_address
          ∧ (plainUserHeader s).module_end_address
            ≤ (Modular.module_system_part1 exampleDecls).end_address) := by
  intro s
  have hf := fetch_module_in_range exampleDecls (Modular.module_bounds exampleDecls)
    (singleModuleFlash 0x18000 (plainUserHeader s) 0) hal_module_t.zeroed
    (Modular.module_system_part1 exampleDecls) false 0 (plainUserHeader s)
    (Modular.module_user exampleDecls) true (by rfl)
    (show find_module_bounds (Modular.module_bounds exampleDecls) 5 2 = _ from rfl)
    (show in_range (0x3A000 % 2 ^ 32) 0x37000 0x3C000 = true by decide) (by rfl)
  refine ⟨_, hf, rfl, rfl, ?_, show find_module_bounds (Modular.module_bounds exampleDecls) 5 2
    = _ from rfl, ?_⟩
  · exact (result_mask_bits exampleDecls exampleDecls_flags_independent
      (decide (exampleDecls.PLATFORM_ID = module_platform_id (plainUserHeader s))) true
      (decide (checked_mask exampleDecls 0 &&& exampleDecls.MODULE_VALIDATION_INTEGRITY ≠ 0) &&
        (singleModuleFlash 0x18000 (plainUserHeader s) 0).FLASH_VerifyCRC32
          (Modular.module_system_part1 exampleDecls).start_address
          (exampleDecls.module_length (plainUserHeader s)))).1
  show ¬ ((0x18000 : Nat) ≤ 0x3A000 ∧ (0x3A000 : Nat) ≤ 0x37000)
  decide

/-- C27. Teardown (`HAL_System_Info` with `construct = false`) returns, sets `modules`
to `NULL` and `key_values` / `key_value_count` to `NULL` / `0`, and leaves
`module_count` and `platform_id` as they were. After a construct (with `malloc`
succeeding) and a teardown, `module_count` is still `module_bounds_length` while
`modules` is `NULL`. -/
theorem HAL_System_Info_teardown (d : Decls) (tbl : List module_bounds_t) (fl : Flash)
    (heap : Heap) (info : hal_system_info_t) :
    HAL_System_Info d tbl fl heap info false
      = .ok { platform_id := info.platform_id, modules := none,
              module_count := info.module_count, key_values := 0, key_value_count := 0 }
    ∧ (∀ block info1, heap.malloc (module_bounds_length * d.sizeof_hal_module_t) = some block →
        HAL_System_Info d tbl fl heap info true = .ok info1 →
        info1.modules ≠ none
        ∧ HAL_System_Info d tbl fl heap info1 false
          = .ok { platform_id := info1.platform_id, modules := none,
                  module_count := module_bounds_length, key_values := 0,
                  key_value_count := 0 }) := by
  constructor
  · rfl
  · intro block info1 hmal h
    unfold HAL_System_Info at h
    simp only [if_true, hmal] at h
    cases hl : HAL_System_Info_loop d tbl fl block (module_bounds_length % 2 ^ 8) 0 [] with
    | error e => rw [hl] at h; cases h
    | ok records =>
      simp only [hl, Except.ok.injEq] at h
      subst h
      exact ⟨by simp [HAL_OTA_Add_System_Info], rfl⟩

/-- Witness for C27: a construct/teardown cycle on a modular flash. -/
theorem HAL_System_Info_teardown_witness :
    ∃ info1,
      HAL_System_Info exampleDecls (Modular.module_bounds exampleDecls)
        (exampleFlash none) exampleHeap emptyInfo true = .ok info1
      ∧ info1.modules ≠ none
      ∧ HAL_System_Info exampleDecls (Modular.module_bounds exampleDecls)
          (exampleFlash none) exampleHeap info1 false
        = .ok { platform_id := info1.platform_id, modules := none,
                module_count := module_bounds_length, key_values := 0,
                key_value_count := 0 } :=
  ⟨_, by rfl,
    (HAL_System_Info_teardown exampleDecls (Modular.module_bounds exampleDecls)
      (exampleFlash none) exampleHeap emptyInfo).2 (fun _ => hal_module_t.zeroed) _
      (by rfl) (by rfl)⟩

/-- C28. The cached system health never decreases: after `HAL_Set_Sys_Health(h)` from
the cached value `c`, `HAL_Get_Sys_Health` returns `max c h`. Hence setting is
idempotent, two sets commute, and a set with a value not greater than the cache leaves
it unchanged. -/
theorem HAL_Set_Sys_Health_max (c h h2 : Int) :
    HAL_Get_Sys_Health (HAL_Set_Sys_Health c h) = max c h
    ∧ c ≤ HAL_Get_Sys_Health (HAL_Set_Sys_Health c h)
    ∧ HAL_Set_Sys_Health (HAL_Set_Sys_Health c h) h = HAL_Set_Sys_Health c h
    ∧ HAL_Set_Sys_Health (HAL_Set_Sys_Health c h) h2
        = HAL_Set_Sys_Health (HAL_Set_Sys_Health c h2) h
    ∧ (h ≤ c → HAL_Set_Sys_Health c h = c) := by
  have key : ∀ a b : Int, HAL_Set_Sys_Health a b = max a b := by
    intro a b
    unfold HAL_Set_Sys_Health
    split
    · rw [max_eq_right (by omega)]
    · rw [max_eq_left (by omega)]
  refine ⟨key c h, ?_, ?_, ?_, ?_⟩
  · show c ≤ HAL_Set_Sys_Health c h
    rw [key]; exact le_max_left c h
  · rw [key, key]; simp
  · rw [key, key, key, key, max_assoc, max_assoc, max_comm h h2]
  · intro hle
    rw [key]; exact max_eq_left hle

/-- Witness for C28: from cache `5`, setting `3` leaves `5`; setting `7` gives `7`. -/
theorem HAL_Set_Sys_Health_max_witness :
    HAL_Set_Sys_Health 5 3 = 5 ∧ HAL_Get_Sys_Health (HAL_Set_Sys_Health 5 7) = max 5 7 :=
  ⟨(HAL_Set_Sys_Health_max 5 3 0).2.2.2.2 (by decide), (HAL_Set_Sys_Health_max 5 7 0).1⟩

/-- C29. Every partition descriptor compiled into either build, the scratch partition
included, has `start_address < end_address` and
`maximum_size = end_address - start_address`; and within each build the partitions of
the table together with the scratch partition are pairwise disjoint as half-open ranges
`[start_address, end_address)`. -/
theorem partitions_geometry (d : Decls) :
    (∀ P ∈ all_partitions d, P.start_address < P.end_address
        ∧ P.maximum_size = P.end_address - P.start_address)
    ∧ (Modular.module_bounds d ++ [Modular.module_ota d]).Pairwise disjoint_ranges
    ∧ (Monolithic.module_bounds d ++ [Monolithic.module_ota d]).Pairwise disjoint_ranges := by
  refine ⟨?_, ?_, ?_⟩
  · intro P hP
    have key : ∀ m s e : Nat, s < e → m + s = e → s < e ∧ m = e - s := by
      intro m s e h1 h2
      exact ⟨h1, by omega⟩
    simp only [all_partitions, Modular.module_bounds, Monolithic.module_bounds,
      List.mem_append, List.mem_cons, List.mem_singleton, List.not_mem_nil, or_false] at hP
    rcases hP with (((h | h | h | h) | h) | (h | h | h)) | h <;>
      subst h <;> apply key <;>
      simp only [Modular.module_bootloader, Modular.module_system_part1,
        Modular.module_user, Modular.module_factory, Modular.module_ota,
        Monolithic.module_bootloader, Monolithic.module_user, Monolithic.module_factory,
        Monolithic.module_ota] <;>
      norm_num
  · simp only [Modular.module_bounds, List.cons_append, List.nil_append, List.pairwise_cons,
      List.mem_cons, List.mem_singleton, List.not_mem_nil, forall_eq_or_imp, forall_eq,
      List.Pairwise.nil, disjoint_ranges, Modular.module_bootloader,
      Modular.module_system_part1, Modular.module_user, Modular.module_factory,
      Modular.module_ota]
    norm_num
  · simp only [Monolithic.module_bounds, List.cons_append, List.nil_append,
      List.pairwise_cons, List.mem_cons, List.mem_singleton, List.not_mem_nil,
      forall_eq_or_imp, forall_eq, List.Pairwise.nil, disjoint_ranges,
      Monolithic.module_bootloader, Monolithic.module_user, Monolithic.module_factory,
      Monolithic.module_ota]
    norm_num

/-- Witness for C29: the scratch partition of the modular build. -/
theorem partitions_geometry_witness :
    (Modular.module_ota exampleDecls).start_address < (Modular.module_ota exampleDecls).end_address
    ∧ (Modular.module_ota exampleDecls).maximum_size
        = (Modular.module_ota exampleDecls).end_address
          - (Modular.module_ota exampleDecls).start_address :=
  (partitions_geometry exampleDecls).1 (Modular.module_ota exampleDecls) (by decide)

end BluzOta
